import Mathlib

/-!
# Granular noise-gate engine: voice pool, envelope generator, random gate

A shallow embedding of three C++ components of the repository and a
verification of their specification:

* `Windower` (`Windower.h`), the specification's EnvelopeGenerator: the per-voice
  envelope (fixed window shapes, or a four-stage ADSR when `windowType >= 10`);
* `GrainGate` (`GrainGate.h`), the specification's VoicePool: the pool of 32 voices
  (`PoolGrain`) with its allocation cursor `nextGrainIndex`;
* `TimedRandomGate` (`TimedRandomGate.h`), the specification's RandomGate: the looping
  one-hot random gate.

Conventions of the embedding.

* C++ `int` is `Int`. No arithmetic of these components leaves the 32-bit range
  for the inputs considered, so no wrap-around is modelled.
* C++ `float` and `double` are an ordered field `K` with a floor function
  (`ℚ` for evaluation, `ℝ` for statements over the reals): sample values and
  envelope gains are exact. The rounding of `float` arithmetic is modelled
  where an integer member is computed from a `float` product, in
  `TimedRandomGate::updateLoopSize` (function `roundToFloat`). The
  transcendental functions of `<cmath>` are passed in a record `FloatMath K`.
* A member function that mutates the object is a function from the old state
  to the new one (paired with the returned value when there is one).
* An access outside an array or vector is undefined behaviour in C++; the
  functions that can perform one return `Option`, `none` standing for it.
-/

namespace GrainEngine

/-! ## Library primitives -/

/-- The C++ expression `std::max(a, b)`, which is `(a < b) ? b : a`. -/
def stdMax {α : Type} [LT α] [DecidableRel (fun (a b : α) => a < b)] (a b : α) : α :=
  if a < b then b else a

/-- The JUCE library function `juce::jlimit (lowerLimit, upperLimit, valueToConstrain)`.
It returns `valueToConstrain < lowerLimit ? lowerLimit : (upperLimit < valueToConstrain ?
upperLimit : valueToConstrain)`; its debug assertion `lowerLimit <= upperLimit` has no effect
on the returned value. -/
def jlimit {α : Type} [LT α] [DecidableRel (fun (a b : α) => a < b)]
    (lowerLimit upperLimit valueToConstrain : α) : α :=
  if valueToConstrain < lowerLimit then lowerLimit
  else if upperLimit < valueToConstrain then upperLimit
  else valueToConstrain

/-- The C++ conversion `int(x)` of a floating-point value: truncation toward zero. -/
def truncToInt {K : Type} [LinearOrderedField K] [FloorRing K] (x : K) : Int :=
  if 0 ≤ x then ⌊x⌋ else ⌈x⌉

/-- Rounding of a real number to the nearest integer, a tie going to the even integer. -/
def roundHalfEven {K : Type} [LinearOrderedField K] [FloorRing K] (x : K) : Int :=
  if x - (⌊x⌋ : K) < 1 / 2 then ⌊x⌋
  else if 1 / 2 < x - (⌊x⌋ : K) then ⌊x⌋ + 1
  else if ⌊x⌋ % 2 = 0 then ⌊x⌋
  else ⌊x⌋ + 1

/-- The functions of `<cmath>` and the constant `juce::MathConstants<float>::twoPi`
used by the components. -/
structure FloatMath (K : Type) where
  /-- The function `std::cos`. -/
  cos : K → K
  /-- The function `std::exp`. -/
  exp : K → K
  /-- The function `std::pow`. -/
  pow : K → K → K
  /-- The constant `twoPi`. -/
  twoPi : K

/-! ## Windower.h -/

/-- The record `WindowerParams`. -/
structure WindowerParams (K : Type) where
  grainSizeMs : K
  windowType : Int
  attackMs : K
  decayMs : K
  sustain : K
  releaseMs : K
  bpm : K
  beat_division : Int
  currentPPQ : K
  grainStartPPQ : K
  sampleRate : K
  isPlaying : Bool
  randomness : K
  useBeats : Bool
  stereoCorrelation : Bool
  crossfade : K
  lockToGrid : Bool
  deriving DecidableEq

/-- The value `WindowerParams{}`: every member at its default member initializer. -/
def WindowerParams.new {K : Type} [LinearOrderedField K] : WindowerParams K where
  grainSizeMs := 100
  windowType := 0
  attackMs := 2
  decayMs := 10
  sustain := 0.8
  releaseMs := 20
  bpm := 120
  beat_division := 0
  currentPPQ := 0
  grainStartPPQ := 0
  sampleRate := 44100
  isPlaying := true
  randomness := 0
  useBeats := false
  stereoCorrelation := false
  crossfade := 1
  lockToGrid := false

/-- The enumeration `Windower::EnvState`. -/
inductive EnvState where
  | Idle
  | Attack
  | Decay
  | Sustain
  | Release
  deriving DecidableEq, Repr

/-- The data members of `class Windower`. -/
structure Windower (K : Type) where
  sampleRate : K
  sampleIndex : Int
  length : Int
  windowType : Int
  active : Bool
  envState : EnvState
  envSample : Int
  attackSamples : Int
  decaySamples : Int
  releaseSamples : Int
  sustainSamples : Int
  sustainLevel : K
  envParams : WindowerParams K
  deriving DecidableEq

namespace Windower

variable {K : Type} [LinearOrderedField K] [FloorRing K]

/-- The default-constructed `Windower()`: every member at its default member initializer. -/
def new : Windower K where
  sampleRate := 44100
  sampleIndex := 0
  length := 512
  windowType := 0
  active := false
  envState := EnvState.Idle
  envSample := 0
  attackSamples := 1
  decaySamples := 1
  releaseSamples := 1
  sustainSamples := 1
  sustainLevel := 0.8
  envParams := WindowerParams.new

/-- The member function `Windower::reset`. -/
def reset (w : Windower K) : Windower K :=
  { w with
    active := false
    sampleIndex := 0
    length := 512
    windowType := 0
    envState := EnvState.Idle }

/-- The member function `Windower::prepare`. -/
def prepare (w : Windower K) (newSampleRate : K) : Windower K :=
  reset { w with sampleRate := newSampleRate }

/-- The member function `Windower::setADSRStages`. Each statement reads the members written
by the statements before it. -/
def setADSRStages (w : Windower K) (params : WindowerParams K) (totalLength : Int) :
    Windower K :=
  let attackSamples := jlimit 1 totalLength (truncToInt (params.attackMs * 0.001 * w.sampleRate))
  let decaySamples :=
    jlimit 1 (totalLength - attackSamples) (truncToInt (params.decayMs * 0.001 * w.sampleRate))
  let releaseSamples :=
    jlimit 1 (totalLength - attackSamples - decaySamples)
      (truncToInt (params.releaseMs * 0.001 * w.sampleRate))
  let used := attackSamples + decaySamples + releaseSamples
  { w with
    attackSamples := attackSamples
    decaySamples := decaySamples
    releaseSamples := releaseSamples
    sustainLevel := params.sustain
    sustainSamples := stdMax (totalLength - used) 1 }

/-- The member function `Windower::startNewGrain`. -/
def startNewGrain (w : Windower K) (offsetSamples windowTypeToUse windowLengthSamples : Int)
    (params : WindowerParams K) : Windower K :=
  let w1 : Windower K :=
    { w with
      sampleIndex := jlimit 0 (windowLengthSamples - 1) offsetSamples
      length := windowLengthSamples
      windowType := windowTypeToUse
      envParams := params
      active := true }
  if windowTypeToUse ≥ 10 then
    { setADSRStages w1 params windowLengthSamples with
      envSample := 0
      envState := EnvState.Attack }
  else w1

/-- The member function `Windower::isActive`. -/
def isActive (w : Windower K) : Bool := w.active

/-- The member function `Windower::processADSR`: the new state and the returned value. -/
def processADSR (w : Windower K) : Windower K × K :=
  match w.envState with
  | EnvState.Attack =>
    let value : K := (w.envSample : K) / ((stdMax 1 w.attackSamples : Int) : K)
    if w.envSample + 1 ≥ w.attackSamples then
      ({ w with envSample := 0, envState := EnvState.Decay }, value)
    else ({ w with envSample := w.envSample + 1 }, value)
  | EnvState.Decay =>
    let value : K :=
      1 - (1 - w.sustainLevel) * (w.envSample : K) / ((stdMax 1 w.decaySamples : Int) : K)
    if w.envSample + 1 ≥ w.decaySamples then
      ({ w with envSample := 0, envState := EnvState.Sustain }, value)
    else ({ w with envSample := w.envSample + 1 }, value)
  | EnvState.Sustain =>
    let value : K := w.sustainLevel
    if w.envSample + 1 ≥ w.sustainSamples then
      ({ w with envSample := 0, envState := EnvState.Release }, value)
    else ({ w with envSample := w.envSample + 1 }, value)
  | EnvState.Release =>
    let value : K :=
      w.sustainLevel * (1 - (w.envSample : K) / ((stdMax 1 w.releaseSamples : Int) : K))
    if w.envSample + 1 ≥ w.releaseSamples then
      ({ w with envSample := w.envSample + 1, envState := EnvState.Idle }, value)
    else ({ w with envSample := w.envSample + 1 }, value)
  | EnvState.Idle => ({ w with envState := EnvState.Idle }, 0)

/-- The member function `Windower::evaluateWindow`. The phase is
`sampleIdx / float(length - 1)`; the `switch` on `type` is the chain of tests below. The
debug assertion `jassert(sampleIdx >= 0 && sampleIdx < length)` has no effect on the returned
value. -/
def evaluateWindow (m : FloatMath K) (sampleIdx length type : Int) : K :=
  let phase : K := (sampleIdx : K) / ((length - 1 : Int) : K)
  if type = 0 then 0.5 * (1 - m.cos (m.twoPi * phase))
  else if type = 1 then 1 - |2 * phase - 1|
  else if type = 2 then
    0.42 - 0.5 * m.cos (m.twoPi * phase) + 0.08 * m.cos (2 * m.twoPi * phase)
  else if type = 3 then 1
  else if type = 4 then (if phase ≤ 1 then m.exp (-4 * (1 - phase)) else 0)
  else 1

/-- The member function `Windower::process`: the new state and the returned sample. -/
def process (m : FloatMath K) (w : Windower K) (input : K) : Windower K × K :=
  if !w.active then (w, 0)
  else
    let r : Windower K × K :=
      if w.windowType ≥ 10 then processADSR w
      else (w, evaluateWindow m w.sampleIndex w.length w.windowType)
    let w1 : Windower K := { r.1 with sampleIndex := r.1.sampleIndex + 1 }
    let gain : K := r.2
    if w1.sampleIndex ≥ w1.length ∨ (w1.windowType ≥ 10 ∧ w1.envState = EnvState.Idle) then
      ({ w1 with active := false }, 0)
    else (w1, input * gain)

/-- Consecutive calls of `Windower::process`, one for each input sample, in order: the
final state and the list of returned samples. -/
def processAll (m : FloatMath K) : Windower K → List K → Windower K × List K
  | w, [] => (w, [])
  | w, x :: xs =>
    let r : Windower K × K := process m w x
    let rest : Windower K × List K := processAll m r.1 xs
    (rest.1, r.2 :: rest.2)

/-- The closed-form window of the specification at normalized phase `p`, for the shapes
0 (Hann) `0.5 (1 - cos (2π p))`, 1 (Triangle) `1 - |2p - 1|`, 2 (Blackman)
`0.42 - 0.5 cos (2π p) + 0.08 cos (4π p)`, 3 (Rectangular) `1` and 4 (Exponential)
`exp (-4 (1 - p))`. This definition follows the specification, not the code. -/
def specWindow (m : FloatMath K) (shape : Int) (p : K) : K :=
  if shape = 0 then 0.5 * (1 - m.cos (m.twoPi * p))
  else if shape = 1 then 1 - |2 * p - 1|
  else if shape = 2 then 0.42 - 0.5 * m.cos (m.twoPi * p) + 0.08 * m.cos (2 * m.twoPi * p)
  else if shape = 3 then 1
  else m.exp (-4 * (1 - p))

end Windower

/-! ## GrainGate.h -/

/-- The enumeration `EnvelopeState`. -/
inductive EnvelopeState where
  | Inactive
  | Active
  | Dying
  deriving DecidableEq, Repr

/-- The data members of `struct GrainGate::PoolGrain`. -/
structure PoolGrain (K : Type) where
  window : Windower K
  useInputB : Bool
  state : EnvelopeState
  dyingCounter : Int
  initialDyingCounter : Int
  wasActive : Bool
  deriving DecidableEq

namespace PoolGrain

variable {K : Type} [LinearOrderedField K] [FloorRing K]

/-- The constant `PoolGrain::dyingFadeMs`. -/
def dyingFadeMs : Int := 8

/-- The value `PoolGrain()`: every member at its default member initializer. -/
def new : PoolGrain K where
  window := Windower.new
  useInputB := false
  state := EnvelopeState.Inactive
  dyingCounter := 0
  initialDyingCounter := 0
  wasActive := false

/-- The member function `PoolGrain::trigger`. The call
`window.startNewGrain(0, windowType, length)` takes the default argument `params = {}`. -/
def trigger (g : PoolGrain K) (windowType length : Int) (isB : Bool) : PoolGrain K :=
  { g with
    window := g.window.startNewGrain 0 windowType length WindowerParams.new
    useInputB := isB
    state := EnvelopeState.Active
    dyingCounter := 0
    wasActive := true }

/-- The member function `PoolGrain::markDying`. -/
def markDying (g : PoolGrain K) (sampleRate : K) : PoolGrain K :=
  if g.state = EnvelopeState.Active then
    let n : Int := stdMax 4 (truncToInt ((dyingFadeMs : K) * 0.001 * sampleRate))
    { g with
      initialDyingCounter := n
      dyingCounter := n
      state := EnvelopeState.Dying }
  else g

/-- The member function `PoolGrain::isActive`. -/
def isActive (g : PoolGrain K) : Bool := g.state != EnvelopeState.Inactive

/-- The member function `PoolGrain::process`: the new state and the returned sample. -/
def process (m : FloatMath K) (g : PoolGrain K) (inA inB : K) : PoolGrain K × K :=
  if !g.window.isActive && g.state != EnvelopeState.Dying then
    ({ g with state := EnvelopeState.Inactive, wasActive := false }, 0)
  else
    let r : Windower K × K := g.window.process m (if g.useInputB then inB else inA)
    let g1 : PoolGrain K := { g with window := r.1 }
    let val : K := r.2
    if g1.state = EnvelopeState.Dying then
      if g1.dyingCounter > 0 ∧ g1.initialDyingCounter > 0 then
        let fadeMult : K := (g1.dyingCounter : K) / (g1.initialDyingCounter : K)
        let g2 : PoolGrain K := { g1 with dyingCounter := g1.dyingCounter - 1 }
        if g2.dyingCounter ≤ 0 ∨ !g2.window.isActive then
          ({ g2 with state := EnvelopeState.Inactive, wasActive := false }, val * fadeMult)
        else (g2, val * fadeMult)
      else ({ g1 with state := EnvelopeState.Inactive, wasActive := false }, val)
    else if !g1.window.isActive then
      ({ g1 with state := EnvelopeState.Inactive, wasActive := false }, val)
    else (g1, val)

/-- Consecutive calls of `PoolGrain::process`, one for each pair of input samples, in
order: the final state and the list of returned samples. -/
def processAll (m : FloatMath K) : PoolGrain K → List (K × K) → PoolGrain K × List K
  | g, [] => (g, [])
  | g, x :: xs =>
    let r : PoolGrain K × K := process m g x.1 x.2
    let rest : PoolGrain K × List K := processAll m r.1 xs
    (rest.1, r.2 :: rest.2)

end PoolGrain

/-- The constant `GrainGate::grainsInPool`. -/
abbrev grainsInPool : Nat := 32

/-- The data members of `struct GrainGate` that its member functions use: the cursor
`nextGrainIndex` and the array `pool` of `grainsInPool` voices. The member `rng` is read
and written by no member function and is left out. -/
structure GrainGate (K : Type) where
  nextGrainIndex : Int
  pool : Fin grainsInPool → PoolGrain K

namespace GrainGate

variable {K : Type} [LinearOrderedField K] [FloorRing K]

/-- A default-constructed `GrainGate`. -/
def new : GrainGate K where
  nextGrainIndex := 0
  pool := fun _ => PoolGrain.new

/-- The subscript `pool[i]` with an `int` index: the element's position when
`0 <= i < grainsInPool`, and `none` (an access outside the array) otherwise. -/
def poolIndex (i : Int) : Option (Fin grainsInPool) :=
  if h : 0 ≤ i ∧ i < (grainsInPool : Int) then
    some ⟨i.toNat, by have h2 := h.2; simp only [grainsInPool] at h2 ⊢; omega⟩
  else none

/-- The member function `GrainGate::reset`. -/
def reset (_g : GrainGate K) : GrainGate K where
  pool := fun _ => PoolGrain.new
  nextGrainIndex := 0

/-- The member function `GrainGate::prepare`. -/
def prepare (g : GrainGate K) (sampleRate : K) : GrainGate K :=
  reset
    { g with
      pool := fun i => { g.pool i with window := (g.pool i).window.prepare sampleRate } }

/-- The member function `GrainGate::findOldestActive`. -/
def findOldestActive (g : GrainGate K) : Int := g.nextGrainIndex

/-- The `for` loop of `GrainGate::triggerGrain`, with `remaining` iterations left to run
from the loop counter `tries`. The result is `none` for an access outside the pool,
`some (some g)` when the loop returned from the function in state `g`, and `some none`
when the loop ran to its end. The operator `%` of C++ truncates: `Int.tmod`. -/
def triggerLoop (g : GrainGate K) (windowType windowLength : Int) (useInputB : Bool) :
    (remaining : Nat) → (tries : Int) → Option (Option (GrainGate K))
  | 0, _ => some none
  | remaining + 1, tries =>
    match poolIndex (Int.tmod (g.nextGrainIndex + tries) grainsInPool) with
    | none => none
    | some idx =>
      if !(g.pool idx).isActive then
        some (some
          { g with
            pool := Function.update g.pool idx ((g.pool idx).trigger windowType windowLength useInputB)
            nextGrainIndex := Int.tmod ((idx : Int) + 1) grainsInPool })
      else triggerLoop g windowType windowLength useInputB remaining (tries + 1)

/-- The member function `GrainGate::triggerGrain`; `none` stands for an access outside the
pool. -/
def triggerGrain (g : GrainGate K) (windowType windowLength : Int) (useInputB : Bool)
    (sampleRate : K) : Option (GrainGate K) :=
  match triggerLoop g windowType windowLength useInputB grainsInPool 0 with
  | none => none
  | some (some g1) => some g1
  | some none =>
    let oldestIdx : Int := findOldestActive g
    match poolIndex oldestIdx with
    | none => none
    | some i =>
      let marked : PoolGrain K := (g.pool i).markDying sampleRate
      some
        { g with
          pool := Function.update g.pool i (marked.trigger windowType windowLength useInputB)
          nextGrainIndex := Int.tmod (oldestIdx + 1) grainsInPool }

/-- The member function `GrainGate::process`: the loop visits the voices in index order,
replaces each by its processed state and adds its sample to `out`. -/
def process (m : FloatMath K) (g : GrainGate K) (inputA inputB : K) : GrainGate K × K :=
  let r : (Fin grainsInPool → PoolGrain K) × K :=
    (List.finRange grainsInPool).foldl
      (fun acc i =>
        let q : PoolGrain K × K := (acc.1 i).process m inputA inputB
        (Function.update acc.1 i q.1, acc.2 + q.2))
      (g.pool, 0)
  ({ g with pool := r.1 }, r.2)

/-- The arguments of one call `triggerGrain(windowType, windowLength, useInputB, sampleRate)`. -/
structure TriggerCall (K : Type) where
  windowType : Int
  windowLength : Int
  useInputB : Bool
  sampleRate : K

/-- Consecutive calls of `triggerGrain`, one for each element of `calls`, in order. -/
def triggerAll (g : GrainGate K) : List (TriggerCall K) → Option (GrainGate K)
  | [] => some g
  | c :: cs =>
    match triggerGrain g c.windowType c.windowLength c.useInputB c.sampleRate with
    | none => none
    | some g1 => triggerAll g1 cs

/-- One call on the pool by its owner: `triggerGrain` with its arguments, or `process` with
its two input samples. -/
inductive PoolOp (K : Type) where
  | trigger (call : TriggerCall K)
  | process (inputA inputB : K)

/-- A sequence of calls on the pool, in order: the final state, or `none` when one of the
`triggerGrain` calls is undefined. The samples returned by `process` are dropped. -/
def run (m : FloatMath K) (g : GrainGate K) : List (PoolOp K) → Option (GrainGate K)
  | [] => some g
  | PoolOp.trigger c :: ops =>
    match triggerGrain g c.windowType c.windowLength c.useInputB c.sampleRate with
    | none => none
    | some g1 => run m g1 ops
  | PoolOp.process a b :: ops => run m (process m g a b).1 ops

end GrainGate

/-! ## TimedRandomGate.h -/

/-- The data members of `class TimedRandomGate`. The engine `rng` is represented by the
seed it was last given and the number of values drawn from it since. -/
structure TimedRandomGate (K : Type) where
  modBuffer : List Int
  modPosition : Int
  sampleRate : Int
  loopLength : Int
  randomnessStrength : K
  rngSeed : Nat
  rngDraws : Nat
  deriving DecidableEq

namespace TimedRandomGate

variable {K : Type} [LinearOrderedField K] [FloorRing K]

/-- The call `std::vector<int>::resize(n)`: the first `n` elements are kept and the
vector is padded with zeros up to size `n`. -/
def vectorResize (buf : List Int) (n : Nat) : List Int :=
  buf.take n ++ List.replicate (n - buf.length) 0

/-- The subscript `modBuffer[i]` with an `int` index; `none` outside the vector. -/
def bufferAt (buf : List Int) (i : Int) : Option Int :=
  if 0 ≤ i then buf.get? i.toNat else none

/-- The member function `TimedRandomGate::fillOneHotBuffer`; `none` when the write
`modBuffer[0] = 1` falls outside the vector. -/
def fillOneHotBuffer (g : TimedRandomGate K) : Option (TimedRandomGate K) :=
  let filled : List Int := g.modBuffer.map (fun _ => 0)
  if 0 < filled.length then some { g with modBuffer := filled.set 0 1 } else none

/-- The member function `TimedRandomGate::setSampleRate`. A negative `sr` converts to a
size that `resize` cannot allocate, so that no state results: `none`. -/
def setSampleRate (g : TimedRandomGate K) (sr : Int) : Option (TimedRandomGate K) :=
  if sr < 0 then none
  else
    fillOneHotBuffer { g with sampleRate := sr, modBuffer := vectorResize g.modBuffer sr.toNat }

/-- The member function `TimedRandomGate::seed`. -/
def seed (g : TimedRandomGate K) (s : Nat) : TimedRandomGate K :=
  { g with rngSeed := s, rngDraws := 0 }

/-- The member function `TimedRandomGate::reset`. -/
def reset (g : TimedRandomGate K) : TimedRandomGate K :=
  { g with modPosition := 0 }

/-- The members of a `TimedRandomGate` at their default member initializers, before the
body of the constructor runs. The engine's first seed comes from `std::random_device` and
is passed as `deviceSeed`. -/
def members (deviceSeed : Nat) : TimedRandomGate K where
  modBuffer := []
  modPosition := 0
  sampleRate := 44100
  loopLength := 44100
  randomnessStrength := 0
  rngSeed := deviceSeed
  rngDraws := 0

/-- The constructor `TimedRandomGate(sampleRate)`. The process-wide counter `defaultSeed`
is passed in and its incremented value is returned with the object. -/
def construct (sampleRate : Int) (deviceSeed defaultSeed : Nat) :
    Option (TimedRandomGate K × Nat) :=
  match setSampleRate (members deviceSeed) sampleRate with
  | none => none
  | some g => some (seed g defaultSeed, defaultSeed + 1)

/-- The member function `TimedRandomGate::shouldRandomizeThisSample`: the new state and the
returned flag; `none` when the read `modBuffer[modPosition]` falls outside the vector or
the divisor `loopLength` is zero. -/
def shouldRandomizeThisSample (g : TimedRandomGate K) : Option (TimedRandomGate K × Bool) :=
  match bufferAt g.modBuffer g.modPosition with
  | none => none
  | some v =>
    if g.loopLength = 0 then none
    else some ({ g with modPosition := Int.tmod (g.modPosition + 1) g.loopLength }, v == 1)

/-- The member function `TimedRandomGate::possiblyFlip`. The argument `u` is the value that
`dist(rng)` returns when the function draws one. In the last line `!gateValue` is the
integer 1 when `gateValue` is 0, and 0 otherwise. -/
def possiblyFlip (m : FloatMath K) (g : TimedRandomGate K) (gateValue : Int) (u : K) :
    Option (TimedRandomGate K × Bool) :=
  match shouldRandomizeThisSample g with
  | none => none
  | some (g1, false) => some (g1, gateValue == 1)
  | some (g1, true) =>
    let shapedChance : K := m.pow g1.randomnessStrength 1.5
    let flip : Bool := u < shapedChance
    let g2 : TimedRandomGate K := { g1 with rngDraws := g1.rngDraws + 1 }
    some (g2, (if flip then (if gateValue = 0 then (1 : Int) else 0) else gateValue) == 1)

end TimedRandomGate

/-! ## Verification: the voice pool -/

section Pool

variable {K : Type} [LinearOrderedField K] [FloorRing K]

/-- An index inside the pool is a position of the array. -/
theorem poolIndex_eq_some {i : Int} (h : 0 ≤ i ∧ i < 32) :
    ∃ idx : Fin grainsInPool, GrainGate.poolIndex i = some idx ∧ (idx : Int) = i := by
  refine ⟨⟨i.toNat, by show i.toNat < 32; omega⟩, ?_, ?_⟩
  · unfold GrainGate.poolIndex
    rw [dif_pos (by simpa using h)]
  · simp [Int.toNat_of_nonneg h.1]

/-- From a non-negative cursor, the index `(cursor + tries) % grainsInPool` that the scanning
loop computes is a position of the array, the remainder of the Euclidean division. -/
theorem poolIndex_tmod {c : Int} (hc : 0 ≤ c) (t : Nat) :
    ∃ idx : Fin grainsInPool,
      GrainGate.poolIndex (Int.tmod (c + (t : Int)) grainsInPool) = some idx ∧
        (idx : Int) = (c + (t : Int)) % 32 := by
  have h0 : (0 : Int) ≤ c + (t : Int) := by omega
  have hm : Int.tmod (c + (t : Int)) grainsInPool = (c + (t : Int)) % 32 := by
    rw [Int.tmod_eq_emod h0 (by simp)]
    rfl
  rw [hm]
  exact poolIndex_eq_some ⟨Int.emod_nonneg _ (by decide), Int.emod_lt_of_pos _ (by decide)⟩

/-- Two positions of the pool with the same integer value are the same position. -/
theorem fin_eq_of_coe_eq {i j : Fin grainsInPool} (h : (i : Int) = (j : Int)) : i = j := by
  apply Fin.ext
  exact_mod_cast h

/-- Every voice index is met within 32 steps of a scan from any cursor. -/
theorem scan_covers (c : Int) (j : Fin grainsInPool) :
    ∃ t : Nat, t < 32 ∧ (j : Int) = (c + (t : Int)) % 32 := by
  refine ⟨(((j : Int) - c) % 32).toNat, ?_, ?_⟩
  · have := Int.emod_lt_of_pos ((j : Int) - c) (show (0 : Int) < 32 by decide)
    have := Int.emod_nonneg ((j : Int) - c) (show (32 : Int) ≠ 0 by decide)
    omega
  · have h1 := Int.emod_nonneg ((j : Int) - c) (show (32 : Int) ≠ 0 by decide)
    rw [Int.toNat_of_nonneg h1]
    have hj : (j : Int) < 32 := by have h32 : (j : Nat) < 32 := j.isLt; omega
    have hj0 : (0 : Int) ≤ (j : Int) := by omega
    omega

/-- The members that `PoolGrain::trigger` leaves behind for a length of at least 1. -/
theorem trigger_fields (p : PoolGrain K) (shape length : Int) (src : Bool) (hlen : 1 ≤ length) :
    (p.trigger shape length src).state = EnvelopeState.Active ∧
    (p.trigger shape length src).dyingCounter = 0 ∧
    (p.trigger shape length src).useInputB = src ∧
    (p.trigger shape length src).window.active = true ∧
    (p.trigger shape length src).window.sampleIndex = 0 ∧
    (p.trigger shape length src).window.windowType = shape ∧
    (p.trigger shape length src).window.length = length := by
  have hj : jlimit 0 (length - 1) (0 : Int) = 0 := by
    unfold jlimit
    rw [if_neg (by omega), if_neg (by omega)]
  refine ⟨rfl, rfl, rfl, ?_, ?_, ?_, ?_⟩ <;>
    simp only [PoolGrain.trigger, Windower.startNewGrain, Windower.setADSRStages] <;>
    split <;> simp [hj]

omit [LinearOrderedField K] [FloorRing K] in
/-- The test `!pool[idx].isActive()` of the scanning loop holds exactly for an Inactive voice. -/
theorem isActive_eq_false_iff (p : PoolGrain K) :
    (!p.isActive) = true ↔ p.state = EnvelopeState.Inactive := by
  cases h : p.state <;> simp [PoolGrain.isActive, h]

/-- What the scanning loop of `triggerGrain` does from loop counter `tries`: either it runs
to its end and every voice it met is busy, or it triggers the first free voice it meets. -/
theorem triggerLoop_spec (g : GrainGate K) (wt wl : Int) (b : Bool)
    (hc : 0 ≤ g.nextGrainIndex) :
    ∀ (remaining tries : Nat),
      (GrainGate.triggerLoop g wt wl b remaining tries = some none ∧
        ∀ s : Nat, tries ≤ s → s < tries + remaining → ∀ j : Fin grainsInPool,
          (j : Int) = (g.nextGrainIndex + (s : Int)) % 32 →
            (g.pool j).state ≠ EnvelopeState.Inactive) ∨
      ∃ (t : Nat) (idx : Fin grainsInPool), tries ≤ t ∧ t < tries + remaining ∧
        (idx : Int) = (g.nextGrainIndex + (t : Int)) % 32 ∧
        (g.pool idx).state = EnvelopeState.Inactive ∧
        (∀ s : Nat, tries ≤ s → s < t → ∀ j : Fin grainsInPool,
          (j : Int) = (g.nextGrainIndex + (s : Int)) % 32 →
            (g.pool j).state ≠ EnvelopeState.Inactive) ∧
        GrainGate.triggerLoop g wt wl b remaining tries =
          some (some
            { g with
              pool := Function.update g.pool idx ((g.pool idx).trigger wt wl b)
              nextGrainIndex := Int.tmod ((idx : Int) + 1) grainsInPool }) := by
  intro remaining
  induction remaining with
  | zero =>
    intro tries
    left
    refine ⟨rfl, ?_⟩
    intro s h1 h2
    omega
  | succ n ih =>
    intro tries
    obtain ⟨idx, hidx, hval⟩ := poolIndex_tmod hc tries
    by_cases hfree : (g.pool idx).state = EnvelopeState.Inactive
    · right
      refine ⟨tries, idx, le_refl _, by omega, hval, hfree, ?_, ?_⟩
      · intro s h1 h2
        omega
      · simp only [GrainGate.triggerLoop, hidx]
        rw [if_pos ((isActive_eq_false_iff _).2 hfree)]
    · have hstep : GrainGate.triggerLoop g wt wl b (n + 1) tries =
          GrainGate.triggerLoop g wt wl b n (tries + 1 : Nat) := by
        simp only [GrainGate.triggerLoop, hidx]
        rw [if_neg (fun h => hfree ((isActive_eq_false_iff _).1 h))]
        push_cast
        rfl
      have hhere : ∀ j : Fin grainsInPool,
          (j : Int) = (g.nextGrainIndex + (tries : Int)) % 32 →
            (g.pool j).state ≠ EnvelopeState.Inactive := by
        intro j hj
        have : j = idx := fin_eq_of_coe_eq (by rw [hj, hval])
        rw [this]
        exact hfree
      rcases ih (tries + 1) with ⟨hnone, hall⟩ | ⟨t, i, h1, h2, h3, h4, h5, h6⟩
      · left
        refine ⟨by rw [hstep]; exact hnone, ?_⟩
        intro s hs1 hs2 j hj
        by_cases hs : s = tries
        · subst hs
          exact hhere j hj
        · exact hall s (by omega) (by omega) j hj
      · right
        refine ⟨t, i, by omega, by omega, h3, h4, ?_, by rw [hstep]; exact h6⟩
        intro s hs1 hs2 j hj
        by_cases hs : s = tries
        · subst hs
          exact hhere j hj
        · exact h5 s (by omega) hs2 j hj

/-- The cursor update `(idx + 1) % grainsInPool` for a non-negative index. -/
theorem tmod_succ_pool {x : Int} (hx : 0 ≤ x) : Int.tmod (x + 1) grainsInPool = (x + 1) % 32 := by
  rw [Int.tmod_eq_emod (by omega) (by simp)]
  rfl

/-- The two outcomes of `triggerGrain` from a cursor inside the pool: the first free voice
of the scan is triggered, or, every voice being busy, the voice at the cursor is marked
dying and triggered. -/
theorem triggerGrain_cases (g : GrainGate K) (shape length : Int) (src : Bool)
    (sampleRate : K) (hcur : 0 ≤ g.nextGrainIndex ∧ g.nextGrainIndex < 32) :
    (∃ (t : Nat) (idx : Fin grainsInPool), t < 32 ∧
        (idx : Int) = (g.nextGrainIndex + (t : Int)) % 32 ∧
        (g.pool idx).state = EnvelopeState.Inactive ∧
        (∀ s : Nat, s < t → ∀ j : Fin grainsInPool,
          (j : Int) = (g.nextGrainIndex + (s : Int)) % 32 →
            (g.pool j).state ≠ EnvelopeState.Inactive) ∧
        GrainGate.triggerGrain g shape length src sampleRate =
          some
            { g with
              pool := Function.update g.pool idx ((g.pool idx).trigger shape length src)
              nextGrainIndex := ((idx : Int) + 1) % 32 }) ∨
    ((∀ j, (g.pool j).state ≠ EnvelopeState.Inactive) ∧
      ∃ i : Fin grainsInPool, (i : Int) = g.nextGrainIndex ∧
        GrainGate.triggerGrain g shape length src sampleRate =
          some
            { g with
              pool := Function.update g.pool i
                (((g.pool i).markDying sampleRate).trigger shape length src)
              nextGrainIndex := ((i : Int) + 1) % 32 }) := by
  have hloop := triggerLoop_spec g shape length src hcur.1 32 0
  simp only [Nat.cast_zero, Nat.zero_add] at hloop
  rcases hloop with ⟨hnone, hall⟩ | ⟨t, idx, -, h2, h3, h4, h5, h6⟩
  · right
    obtain ⟨i, hi, hval⟩ := poolIndex_eq_some hcur
    refine ⟨?_, i, hval, ?_⟩
    · intro j
      obtain ⟨t, ht, hj⟩ := scan_covers g.nextGrainIndex j
      exact hall t (Nat.zero_le _) (by omega) j hj
    · simp only [GrainGate.triggerGrain, hnone, GrainGate.findOldestActive, hi]
      rw [tmod_succ_pool hcur.1, hval]
  · left
    refine ⟨t, idx, h2, h3, h4, fun s hs j hj => h5 s (Nat.zero_le _) hs j hj, ?_⟩
    simp only [GrainGate.triggerGrain, h6]
    rw [tmod_succ_pool (by omega)]

/-- C1: `triggerGrain` with `length >= 1`, from a cursor inside the pool, succeeds and
triggers one voice `i`. If some voice is Inactive, `i` is the first Inactive voice of the scan
`cursor, cursor + 1, ...` modulo 32; if none is, `i` is the cursor. That voice ends Active with
`dyingCounter = 0`, source flag `src`, and an active generator at sample index 0 with the given
shape and length; the cursor becomes `(i + 1) mod 32`; no other voice changes. -/
theorem triggerGrain_target (g : GrainGate K) (shape length : Int) (src : Bool)
    (sampleRate : K) (hcur : 0 ≤ g.nextGrainIndex ∧ g.nextGrainIndex < 32)
    (hlen : 1 ≤ length) :
    ∃ (g' : GrainGate K) (i : Fin grainsInPool),
      GrainGate.triggerGrain g shape length src sampleRate = some g' ∧
      ((∃ j, (g.pool j).state = EnvelopeState.Inactive) →
        ∃ t : Nat, t < 32 ∧ (i : Int) = (g.nextGrainIndex + (t : Int)) % 32 ∧
          (g.pool i).state = EnvelopeState.Inactive ∧
          ∀ s : Nat, s < t → ∀ j : Fin grainsInPool,
            (j : Int) = (g.nextGrainIndex + (s : Int)) % 32 →
              (g.pool j).state ≠ EnvelopeState.Inactive) ∧
      ((∀ j, (g.pool j).state ≠ EnvelopeState.Inactive) → (i : Int) = g.nextGrainIndex) ∧
      (g'.pool i).state = EnvelopeState.Active ∧
      (g'.pool i).dyingCounter = 0 ∧
      (g'.pool i).useInputB = src ∧
      (g'.pool i).window.active = true ∧
      (g'.pool i).window.sampleIndex = 0 ∧
      (g'.pool i).window.windowType = shape ∧
      (g'.pool i).window.length = length ∧
      g'.nextGrainIndex = ((i : Int) + 1) % 32 ∧
      ∀ j, j ≠ i → g'.pool j = g.pool j := by
  rcases triggerGrain_cases g shape length src sampleRate hcur with
    ⟨t, idx, h2, h3, h4, h5, h6⟩ | ⟨hbusy, i, hval, hres⟩
  · obtain ⟨f1, f2, f3, f4, f5, f6, f7⟩ := trigger_fields (g.pool idx) shape length src hlen
    refine ⟨_, idx, h6, fun _ => ⟨t, h2, h3, h4, h5⟩, fun hbusy => absurd h4 (hbusy idx), ?_⟩
    refine ⟨?_, ?_, ?_, ?_, ?_, ?_, ?_, rfl, fun j hj => Function.update_noteq hj _ _⟩ <;>
      dsimp only <;> rw [Function.update_same] <;> assumption
  · obtain ⟨f1, f2, f3, f4, f5, f6, f7⟩ :=
      trigger_fields ((g.pool i).markDying sampleRate) shape length src hlen
    refine ⟨_, i, hres, fun ⟨j, hj⟩ => absurd hj (hbusy j), fun _ => hval, ?_⟩
    refine ⟨?_, ?_, ?_, ?_, ?_, ?_, ?_, rfl, fun j hj => Function.update_noteq hj _ _⟩ <;>
      dsimp only <;> rw [Function.update_same] <;> assumption

/-- C1 at a concrete input: the first trigger on a freshly prepared pool over `ℚ`. -/
theorem triggerGrain_target_witness :
    ((0 : Int) ≤ (GrainGate.prepare GrainGate.new 48000 : GrainGate ℚ).nextGrainIndex ∧
      (GrainGate.prepare GrainGate.new 48000 : GrainGate ℚ).nextGrainIndex < 32) ∧
    (1 : Int) ≤ 100 ∧
    ∃ (g' : GrainGate ℚ) (i : Fin grainsInPool),
      GrainGate.triggerGrain (GrainGate.prepare GrainGate.new 48000) 3 100 true 48000 = some g' ∧
      (g'.pool i).state = EnvelopeState.Active ∧
      (g'.pool i).window.length = 100 ∧
      g'.nextGrainIndex = ((i : Int) + 1) % 32 :=
  ⟨by decide, by decide,
    (triggerGrain_target (GrainGate.prepare GrainGate.new 48000 : GrainGate ℚ) 3 100 true 48000
      (by decide) (by decide)).elim
      fun g' h => h.elim fun i hi =>
        ⟨g', i, hi.1, hi.2.2.2.1, hi.2.2.2.2.2.2.2.2.2.1, hi.2.2.2.2.2.2.2.2.2.2.1⟩⟩

end Pool

section PoolFrame

variable {K : Type} [LinearOrderedField K] [FloorRing K]

/-- When the voice at the cursor is free, `triggerGrain` triggers that voice. -/
theorem triggerGrain_at_free_cursor (g : GrainGate K) (shape length : Int) (src : Bool)
    (sampleRate : K) (i : Fin grainsInPool) (hi : (i : Int) = g.nextGrainIndex)
    (hfree : (g.pool i).state = EnvelopeState.Inactive) :
    GrainGate.triggerGrain g shape length src sampleRate =
      some
        { g with
          pool := Function.update g.pool i ((g.pool i).trigger shape length src)
          nextGrainIndex := ((i : Int) + 1) % 32 } := by
  have hi32 : (i : Nat) < 32 := i.isLt
  have hcur : 0 ≤ g.nextGrainIndex ∧ g.nextGrainIndex < 32 := by omega
  rcases triggerGrain_cases g shape length src sampleRate hcur with
    ⟨t, idx, h2, h3, h4, h5, h6⟩ | ⟨hbusy, -⟩
  · have ht : t = 0 := by
      by_contra hne
      exact h5 0 (Nat.pos_of_ne_zero hne) i (by rw [hi]; simp; omega) hfree
    subst ht
    have : idx = i := fin_eq_of_coe_eq (by rw [h3, hi]; simp; omega)
    subst this
    exact h6
  · exact absurd hfree (hbusy i)

/-- Consecutive triggers on a pool whose voices from index `n` on are all untouched
(`PoolGrain()`) and whose cursor is `n`: the calls fill the voices `n, n + 1, ...` in order. -/
theorem triggerAll_fill (calls : List (GrainGate.TriggerCall K)) :
    ∀ (n : Nat) (g : GrainGate K), n + calls.length ≤ 32 →
      g.nextGrainIndex = (n : Int) % 32 →
      (∀ i : Fin grainsInPool, n ≤ (i : Nat) → g.pool i = PoolGrain.new) →
      ∃ g' : GrainGate K, GrainGate.triggerAll g calls = some g' ∧
        g'.nextGrainIndex = ((n + calls.length : Nat) : Int) % 32 ∧
        (∀ i : Fin grainsInPool, (i : Nat) < n → g'.pool i = g.pool i) ∧
        (∀ (k : Nat) (c : GrainGate.TriggerCall K), calls[k]? = some c →
          ∀ i : Fin grainsInPool, (i : Nat) = n + k →
            g'.pool i = PoolGrain.new.trigger c.windowType c.windowLength c.useInputB) ∧
        (∀ i : Fin grainsInPool, n + calls.length ≤ (i : Nat) → g'.pool i = PoolGrain.new) := by
  induction calls with
  | nil =>
    intro n g _ hcur hnew
    refine ⟨g, rfl, by simpa using hcur, fun i _ => rfl, ?_, by simpa using hnew⟩
    intro k c hk
    simp at hk
  | cons c cs ih =>
    intro n g hlen hcur hnew
    simp only [List.length_cons] at hlen
    have hn : n < 32 := by omega
    have hcur' : g.nextGrainIndex = (n : Int) := by rw [hcur]; omega
    have hslot : g.pool ⟨n, hn⟩ = PoolGrain.new := hnew ⟨n, hn⟩ (le_refl _)
    have hstep := triggerGrain_at_free_cursor g c.windowType c.windowLength c.useInputB
      c.sampleRate ⟨n, hn⟩ (by simp [hcur']) (by rw [hslot]; rfl)
    have hnew1 : ∀ i : Fin grainsInPool, n + 1 ≤ (i : Nat) →
        Function.update g.pool ⟨n, hn⟩
          ((g.pool ⟨n, hn⟩).trigger c.windowType c.windowLength c.useInputB) i =
          PoolGrain.new := by
      intro i hi
      have hne : i ≠ ⟨n, hn⟩ := by
        intro h
        rw [h] at hi
        simp at hi
      simp only [Function.update_noteq hne]
      exact hnew i (by omega)
    obtain ⟨g', hg', hc', hlow, hmid, hhigh⟩ := ih (n + 1)
      { g with
        pool := Function.update g.pool ⟨n, hn⟩
          ((g.pool ⟨n, hn⟩).trigger c.windowType c.windowLength c.useInputB)
        nextGrainIndex := (((⟨n, hn⟩ : Fin grainsInPool) : Nat) + 1 : Int) % 32 }
      (by omega) (by simp) hnew1
    refine ⟨g', ?_, ?_, ?_, ?_, ?_⟩
    · simp only [GrainGate.triggerAll, hstep]
      exact hg'
    · rw [hc']
      simp only [List.length_cons]
      congr 2
      omega
    · intro i hi
      have hne : i ≠ ⟨n, hn⟩ := by
        intro h
        rw [h] at hi
        simp at hi
      rw [hlow i (by omega)]
      simp only [Function.update_noteq hne]
    · intro k d hk i hi
      cases k with
      | zero =>
        simp only [List.getElem?_cons_zero, Option.some.injEq] at hk
        subst hk
        have hin : i = ⟨n, hn⟩ := Fin.ext (by simpa using hi)
        subst hin
        rw [hlow _ (by simp)]
        simp only [Function.update_same, hslot]
      | succ k =>
        simp only [List.getElem?_cons_succ] at hk
        exact hmid k d hk i (by omega)
    · intro i hi
      exact hhigh i (by simp only [List.length_cons] at hi; omega)

omit [FloorRing K] in
/-- The pool after `prepare`: cursor 0 and 32 default voices, whatever the pool was before. -/
theorem prepare_eq (g0 : GrainGate K) (sr : K) :
    GrainGate.prepare g0 sr = { nextGrainIndex := 0, pool := fun _ => PoolGrain.new } := rfl

/-- C2: (a) when some voice is Inactive, `triggerGrain` (from a cursor inside the pool)
succeeds and leaves every voice that is not Inactive exactly as it was; (b) on a freshly
prepared pool, `k <= 32` consecutive `triggerGrain` calls succeed and leave each voice
`i < k` Active and equal to a default voice triggered with the arguments of call `i + 1`. -/
theorem triggerGrain_frame :
    (∀ (g : GrainGate K) (shape length : Int) (src : Bool) (sampleRate : K),
      (0 ≤ g.nextGrainIndex ∧ g.nextGrainIndex < 32) →
      (∃ j, (g.pool j).state = EnvelopeState.Inactive) →
      ∃ g' : GrainGate K, GrainGate.triggerGrain g shape length src sampleRate = some g' ∧
        ∀ j, (g.pool j).state ≠ EnvelopeState.Inactive → g'.pool j = g.pool j) ∧
    (∀ (g0 : GrainGate K) (sr : K) (calls : List (GrainGate.TriggerCall K)),
      calls.length ≤ 32 →
      ∃ g' : GrainGate K, GrainGate.triggerAll (GrainGate.prepare g0 sr) calls = some g' ∧
        ∀ (i : Fin grainsInPool) (c : GrainGate.TriggerCall K), calls[(i : Nat)]? = some c →
          (g'.pool i).state = EnvelopeState.Active ∧
          g'.pool i = PoolGrain.new.trigger c.windowType c.windowLength c.useInputB) := by
  constructor
  · intro g shape length src sampleRate hcur ⟨j0, hj0⟩
    rcases triggerGrain_cases g shape length src sampleRate hcur with
      ⟨t, idx, h2, h3, h4, h5, h6⟩ | ⟨hbusy, -⟩
    · refine ⟨_, h6, ?_⟩
      intro j hj
      have hne : j ≠ idx := fun h => hj (h ▸ h4)
      exact Function.update_noteq hne _ _
    · exact absurd hj0 (hbusy j0)
  · intro g0 sr calls hk
    obtain ⟨g', hg', -, -, hmid, -⟩ := triggerAll_fill calls 0 (GrainGate.prepare g0 sr)
      (by omega) (by rw [prepare_eq]; rfl) (fun i _ => by rw [prepare_eq])
    refine ⟨g', hg', ?_⟩
    intro i c hc
    have h := hmid i c hc i (by omega)
    exact ⟨by rw [h]; rfl, h⟩

/-- C2 at concrete inputs: a trigger on a pool over `ℚ` with voice 0 busy, and two
consecutive triggers on a freshly prepared pool. -/
theorem triggerGrain_frame_witness :
    (∃ g' : GrainGate ℚ,
      GrainGate.triggerGrain
        { nextGrainIndex := 0,
          pool := Function.update (fun _ => PoolGrain.new) 0 (PoolGrain.new.trigger 3 64 false) }
        1 100 true 48000 = some g' ∧
      g'.pool 0 = PoolGrain.new.trigger 3 64 false) ∧
    (∃ g' : GrainGate ℚ,
      GrainGate.triggerAll (GrainGate.prepare GrainGate.new 48000)
        [⟨3, 100, false, 48000⟩, ⟨0, 64, true, 48000⟩] = some g' ∧
      (g'.pool 1).state = EnvelopeState.Active ∧
      g'.pool 1 = PoolGrain.new.trigger 0 64 true) :=
  ⟨(triggerGrain_frame.1
      { nextGrainIndex := 0,
        pool := Function.update (fun _ => PoolGrain.new) 0 (PoolGrain.new.trigger 3 64 false) }
      1 100 true 48000 (by decide) ⟨1, rfl⟩).imp
      fun _ h => ⟨h.1, (h.2 0 (by simp [PoolGrain.trigger])).trans (by simp)⟩,
    (triggerGrain_frame.2 GrainGate.new 48000 [⟨3, 100, false, 48000⟩, ⟨0, 64, true, 48000⟩]
      (by decide)).imp
      fun _ h => ⟨h.1, h.2 1 ⟨0, 64, true, 48000⟩ rfl⟩⟩

end PoolFrame

section PoolSteal

variable {K : Type} [LinearOrderedField K] [FloorRing K]

/-- The fade length at 48000 Hz: `int(8 * 0.001 * 48000) = 384`. -/
theorem truncToInt_fade_48000 : truncToInt ((PoolGrain.dyingFadeMs : ℚ) * 0.001 * 48000) = 384 := by
  have h : ((PoolGrain.dyingFadeMs : ℚ) * 0.001 * 48000) = 384 := by
    norm_num [PoolGrain.dyingFadeMs]
  rw [h]
  simp [truncToInt]

/-- C3 on a full pool: after 32 triggers on a freshly prepared pool every voice is busy and
the cursor is back at 0; the 33rd trigger leaves voice 0 Active with `dyingCounter = 0`
(only `initialDyingCounter` keeps the fade length 384), and its next two samples are at
full amplitude. -/
theorem steal_without_fade :
    ∃ g32 g33 : GrainGate ℚ,
      GrainGate.triggerAll (GrainGate.prepare GrainGate.new 48000)
        (List.replicate 32 ⟨3, 100, false, 48000⟩) = some g32 ∧
      (∀ j, (g32.pool j).state ≠ EnvelopeState.Inactive) ∧
      g32.nextGrainIndex = 0 ∧
      GrainGate.triggerGrain g32 3 100 false 48000 = some g33 ∧
      (g33.pool 0).state = EnvelopeState.Active ∧
      (g33.pool 0).dyingCounter = 0 ∧
      (g33.pool 0).initialDyingCounter = 384 ∧
      ∀ m : FloatMath ℚ,
        ((g33.pool 0).process m 1 0).2 = 1 ∧
        (((g33.pool 0).process m 1 0).1.process m 1 0).2 = 1 ∧
        (((g33.pool 0).process m 1 0).1.process m 1 0).1.state = EnvelopeState.Active := by
  obtain ⟨g32, h32, hc, -, hmid, -⟩ := triggerAll_fill
    (List.replicate 32 (⟨3, 100, false, 48000⟩ : GrainGate.TriggerCall ℚ)) 0
    (GrainGate.prepare GrainGate.new 48000) (by simp) (by rw [prepare_eq]; rfl)
    (fun i _ => by rw [prepare_eq])
  have hpool : ∀ j, g32.pool j = PoolGrain.new.trigger 3 100 false := by
    intro j
    have hj : (j : Nat) < 32 := j.isLt
    exact hmid j ⟨3, 100, false, 48000⟩ (by rw [List.getElem?_replicate, if_pos hj]) j (by omega)
  have hbusy : ∀ j, (g32.pool j).state ≠ EnvelopeState.Inactive := by
    intro j
    rw [hpool j]
    simp [PoolGrain.trigger]
  have hcur : g32.nextGrainIndex = 0 := by
    rw [hc]
    simp
  rcases triggerGrain_cases g32 3 100 false (48000 : ℚ) (by rw [hcur]; decide) with
    ⟨t, idx, -, -, h4, -, -⟩ | ⟨-, i, hi, hres⟩
  · exact absurd h4 (hbusy idx)
  · have hi0 : i = 0 := fin_eq_of_coe_eq (by rw [hi, hcur]; rfl)
    subst hi0
    refine ⟨g32, _, h32, hbusy, hcur, hres, ?_⟩
    dsimp only
    rw [Function.update_same, hpool 0]
    have hN := truncToInt_fade_48000
    refine ⟨rfl, rfl, ?_, ?_⟩
    · simp [PoolGrain.trigger, PoolGrain.markDying, hN, stdMax]
    · intro m
      simp [PoolGrain.trigger, PoolGrain.markDying, hN, stdMax, PoolGrain.process,
        Windower.process, Windower.startNewGrain, Windower.evaluateWindow, Windower.isActive,
        jlimit, PoolGrain.new, Windower.new]

end PoolSteal

/-! ## Verification: the envelope generator -/

section WindowMode

variable {K : Type} [LinearOrderedField K] [FloorRing K]

omit [FloorRing K] in
/-- One call of `process` on an active generator in window mode. -/
theorem process_window_step (m : FloatMath K) (w : Windower K) (x : K)
    (hact : w.active = true) (hshape : w.windowType < 10) :
    Windower.process m w x =
      if w.sampleIndex + 1 ≥ w.length then
        ({ w with sampleIndex := w.sampleIndex + 1, active := false }, 0)
      else
        ({ w with sampleIndex := w.sampleIndex + 1 },
          x * Windower.evaluateWindow m w.sampleIndex w.length w.windowType) := by
  have h10 : ¬ w.windowType ≥ 10 := by omega
  by_cases h : w.sampleIndex + 1 ≥ w.length
  · simp [Windower.process, hact, h10, h]
  · simp [Windower.process, hact, h10, h]

omit [FloorRing K] in
/-- In window mode, with a shape from 0 to 4 and an index inside a window of length at
least 2, the gain the code evaluates is the closed-form window at phase `i / (L - 1)`. -/
theorem evaluateWindow_eq_specWindow (m : FloatMath K) (i L shape : Int)
    (hshape : 0 ≤ shape ∧ shape ≤ 4) (hL : 2 ≤ L) (hi : i < L) :
    Windower.evaluateWindow m i L shape = Windower.specWindow m shape ((i : K) / ((L : K) - 1)) := by
  have hphase : (i : K) / ((L - 1 : Int) : K) = (i : K) / ((L : K) - 1) := by push_cast; rfl
  have hle : (i : K) / ((L : K) - 1) ≤ 1 := by
    have hpos : (0 : K) < (L : K) - 1 := by
      have : ((1 : Int) : K) < (L : K) := by exact_mod_cast (by omega : (1 : Int) < L)
      simpa using sub_pos.2 this
    rw [div_le_one hpos]
    have : ((i : Int) : K) ≤ ((L - 1 : Int) : K) := by exact_mod_cast (by omega : i ≤ L - 1)
    simpa using this
  simp only [Windower.evaluateWindow, Windower.specWindow, hphase]
  have h4 : shape = 0 ∨ shape = 1 ∨ shape = 2 ∨ shape = 3 ∨ shape = 4 := by omega
  rcases h4 with h | h | h | h | h <;> subst h <;> simp [hle]

omit [FloorRing K] in
/-- What `process` does in window mode (shapes 0 to 4, length at least 2, index inside the
window): the index advances by one; before the last index the sample is the input times the
closed-form window and the generator stays active; at the last index `L - 1` the sample is
0 and the generator becomes inactive. -/
theorem process_window_mode (m : FloatMath K) (w : Windower K) (x : K)
    (hact : w.active = true) (hshape : 0 ≤ w.windowType ∧ w.windowType ≤ 4)
    (hL : 2 ≤ w.length) (hi : 0 ≤ w.sampleIndex ∧ w.sampleIndex < w.length) :
    (Windower.process m w x).1.sampleIndex = w.sampleIndex + 1 ∧
    (w.sampleIndex + 1 < w.length →
      (Windower.process m w x).2 =
        x * Windower.specWindow m w.windowType ((w.sampleIndex : K) / ((w.length : K) - 1)) ∧
      (Windower.process m w x).1.active = true) ∧
    (w.sampleIndex + 1 = w.length →
      (Windower.process m w x).2 = 0 ∧ (Windower.process m w x).1.active = false) := by
  rw [process_window_step m w x hact (by omega)]
  refine ⟨by split <;> rfl, ?_, ?_⟩
  · intro h
    rw [if_neg (by omega)]
    exact ⟨by rw [evaluateWindow_eq_specWindow m _ _ _ hshape hL hi.2], hact⟩
  · intro h
    rw [if_pos (by omega)]
    exact ⟨rfl, rfl⟩

/-- C4 at the last sample: a Rectangular grain (shape 3) of length 2 started at offset 0.
The first call returns the input times the window value 1; the second call, at the last
index `i = L - 1 = 1`, returns 0 although the closed-form window there is 1, and leaves the
generator inactive. -/
theorem process_drops_last_sample :
    ∀ m : FloatMath ℚ,
      (Windower.startNewGrain (Windower.new : Windower ℚ) 0 3 2 WindowerParams.new).active
        = true ∧
      (Windower.process m
        (Windower.startNewGrain (Windower.new : Windower ℚ) 0 3 2 WindowerParams.new) 1).2
        = 1 ∧
      (Windower.process m
        (Windower.startNewGrain (Windower.new : Windower ℚ) 0 3 2 WindowerParams.new)
        1).1.active = true ∧
      (Windower.process m
        (Windower.startNewGrain (Windower.new : Windower ℚ) 0 3 2 WindowerParams.new)
        1).1.sampleIndex = 1 ∧
      (Windower.process m
        (Windower.process m
          (Windower.startNewGrain (Windower.new : Windower ℚ) 0 3 2 WindowerParams.new) 1).1
        1).2 = 0 ∧
      (1 : ℚ) * Windower.specWindow m 3 ((1 : ℚ) / ((2 : ℚ) - 1)) = 1 ∧
      (Windower.process m
        (Windower.process m
          (Windower.startNewGrain (Windower.new : Windower ℚ) 0 3 2 WindowerParams.new) 1).1
        1).1.active = false := by
  intro m
  simp [Windower.process, Windower.startNewGrain, Windower.evaluateWindow, Windower.specWindow,
    jlimit, Windower.new]

end WindowMode

section AdsrExample

variable {K : Type} [LinearOrderedField K] [FloorRing K]

/-- Converting a whole number to `int` gives that number. -/
theorem truncToInt_intCast (z : Int) : truncToInt (z : K) = z := by
  unfold truncToInt
  split <;> simp

/-- The stage counts of the example: 10 ms at 1000 Hz is 10 samples. -/
theorem truncToInt_ten_ms : truncToInt ((10 : K) * 0.001 * 1000) = 10 := by
  have h : ((10 : K) * 0.001 * 1000) = ((10 : Int) : K) := by norm_num
  rw [h, truncToInt_intCast]

omit [FloorRing K] in
/-- One call of `process` on an active generator in ADSR mode. -/
theorem process_adsr_step (m : FloatMath K) (w : Windower K) (x : K)
    (hact : w.active = true) (hshape : 10 ≤ w.windowType) :
    Windower.process m w x =
      if (Windower.processADSR w).1.sampleIndex + 1 ≥ (Windower.processADSR w).1.length ∨
          (10 ≤ (Windower.processADSR w).1.windowType ∧
            (Windower.processADSR w).1.envState = EnvState.Idle) then
        ({ (Windower.processADSR w).1 with
            sampleIndex := (Windower.processADSR w).1.sampleIndex + 1, active := false }, 0)
      else
        ({ (Windower.processADSR w).1 with
            sampleIndex := (Windower.processADSR w).1.sampleIndex + 1 },
          x * (Windower.processADSR w).2) := by
  simp only [Windower.process, hact, Bool.not_true, Bool.false_eq_true, if_false, ge_iff_le,
    if_pos hshape]

omit [FloorRing K] in
/-- The example envelope (stage counts 10, 10, 70, 10, sustain level 0.5, length 100): from
the state of sample `i`, one `process` call leads to the state of sample `i + 1`. -/
theorem adsr_example_step (m : FloatMath K) (w : Windower K) (x : K) (i : Int)
    (hact : w.active = true) (hidx : w.sampleIndex = i) (hlen : w.length = 100)
    (hshape : 10 ≤ w.windowType)
    (hcounts : w.attackSamples = 10 ∧ w.decaySamples = 10 ∧ w.sustainSamples = 70 ∧
      w.releaseSamples = 10)
    (hlevel : w.sustainLevel = 0.5)
    (hstage : (0 ≤ i ∧ i < 10 ∧ w.envState = EnvState.Attack ∧ w.envSample = i) ∨
      (10 ≤ i ∧ i < 20 ∧ w.envState = EnvState.Decay ∧ w.envSample = i - 10) ∨
      (20 ≤ i ∧ i < 90 ∧ w.envState = EnvState.Sustain ∧ w.envSample = i - 20) ∨
      (90 ≤ i ∧ i < 100 ∧ w.envState = EnvState.Release ∧ w.envSample = i - 90))
    (hnext : i + 1 < 100) :
    (Windower.process m w x).1.active = true ∧
    (Windower.process m w x).1.sampleIndex = i + 1 ∧
    (Windower.process m w x).1.length = 100 ∧
    10 ≤ (Windower.process m w x).1.windowType ∧
    ((Windower.process m w x).1.attackSamples = 10 ∧
      (Windower.process m w x).1.decaySamples = 10 ∧
      (Windower.process m w x).1.sustainSamples = 70 ∧
      (Windower.process m w x).1.releaseSamples = 10) ∧
    (Windower.process m w x).1.sustainLevel = 0.5 ∧
    ((0 ≤ i + 1 ∧ i + 1 < 10 ∧ (Windower.process m w x).1.envState = EnvState.Attack ∧
        (Windower.process m w x).1.envSample = i + 1) ∨
      (10 ≤ i + 1 ∧ i + 1 < 20 ∧ (Windower.process m w x).1.envState = EnvState.Decay ∧
        (Windower.process m w x).1.envSample = i + 1 - 10) ∨
      (20 ≤ i + 1 ∧ i + 1 < 90 ∧ (Windower.process m w x).1.envState = EnvState.Sustain ∧
        (Windower.process m w x).1.envSample = i + 1 - 20) ∨
      (90 ≤ i + 1 ∧ i + 1 < 100 ∧ (Windower.process m w x).1.envState = EnvState.Release ∧
        (Windower.process m w x).1.envSample = i + 1 - 90)) := by
  obtain ⟨ha, hd, hs, hr⟩ := hcounts
  rw [process_adsr_step m w x hact hshape]
  have hn : ¬ (100 : Int) ≤ i + 1 := by omega
  rcases hstage with ⟨h0, h1, hst, he⟩ | ⟨h0, h1, hst, he⟩ | ⟨h0, h1, hst, he⟩ | ⟨h0, h1, hst, he⟩
  · by_cases hlast : (10 : Int) ≤ i + 1
    · have hi : i = 9 := by omega
      subst hi
      simp [Windower.processADSR, hst, he, ha, hd, hs, hr, hidx, hlen, hact, hshape, hlevel]
    · simp [Windower.processADSR, hst, he, ha, hd, hs, hr, hidx, hlen, hact, hshape, hlevel,
        hlast, hn]
      omega
  · by_cases hlast : (20 : Int) ≤ i + 1
    · have hi : i = 19 := by omega
      subst hi
      simp [Windower.processADSR, hst, he, ha, hd, hs, hr, hidx, hlen, hact, hshape, hlevel]
    · have hc : ¬ (10 : Int) ≤ i - 10 + 1 := by omega
      simp [Windower.processADSR, hst, he, ha, hd, hs, hr, hidx, hlen, hact, hshape, hlevel,
        hc, hn]
      omega
  · by_cases hlast : (90 : Int) ≤ i + 1
    · have hi : i = 89 := by omega
      subst hi
      simp [Windower.processADSR, hst, he, ha, hd, hs, hr, hidx, hlen, hact, hshape, hlevel]
    · have hc : ¬ (70 : Int) ≤ i - 20 + 1 := by omega
      simp [Windower.processADSR, hst, he, ha, hd, hs, hr, hidx, hlen, hact, hshape, hlevel,
        hc, hn]
      omega
  · have hc : ¬ (10 : Int) ≤ i - 90 + 1 := by omega
    simp [Windower.processADSR, hst, he, ha, hd, hs, hr, hidx, hlen, hact, hshape, hlevel,
      hc, hn]
    omega

omit [FloorRing K] in
/-- A property of the generator indexed by the sample number, kept by every `process` call
below a bound, holds after any run of calls that stays below the bound. -/
theorem processAll_invariant (m : FloatMath K) (P : Windower K → Int → Prop) (bound : Int)
    (hstep : ∀ (w : Windower K) (x : K) (i : Int), P w i → i + 1 < bound →
      P (Windower.process m w x).1 (i + 1)) :
    ∀ (inputs : List K) (w : Windower K) (i : Int), P w i →
      i + (inputs.length : Int) < bound →
      P (Windower.processAll m w inputs).1 (i + (inputs.length : Int)) := by
  intro inputs
  induction inputs with
  | nil =>
    intro w i h _
    simpa [Windower.processAll] using h
  | cons x xs ih =>
    intro w i h hb
    simp only [List.length_cons, Nat.cast_add, Nat.cast_one] at hb ⊢
    have h1 := hstep w x i h (by omega)
    have h2 := ih (Windower.process m w x).1 (i + 1) h1 (by omega)
    simp only [Windower.processAll]
    have e : i + ((xs.length : Int) + 1) = i + 1 + (xs.length : Int) := by ring
    rw [e]
    exact h2

omit [FloorRing K] in
/-- The value returned by `processADSR`, stage by stage. -/
theorem processADSR_value (w : Windower K) :
    (Windower.processADSR w).2 =
      match w.envState with
      | EnvState.Attack => (w.envSample : K) / ((stdMax 1 w.attackSamples : Int) : K)
      | EnvState.Decay =>
        1 - (1 - w.sustainLevel) * (w.envSample : K) / ((stdMax 1 w.decaySamples : Int) : K)
      | EnvState.Sustain => w.sustainLevel
      | EnvState.Release =>
        w.sustainLevel * (1 - (w.envSample : K) / ((stdMax 1 w.releaseSamples : Int) : K))
      | EnvState.Idle => 0 := by
  unfold Windower.processADSR
  cases w.envState <;> simp only <;> split <;> rfl

/-- C5: the ADSR example of the specification. A generator prepared at 1000 Hz and started
(offset 0) with an ADSR shape, length 100, attack 10 ms, decay 10 ms, sustain 0.5 and
release 10 ms has the stage counts 10, 10, 70, 10; after `i < 100` process calls it is active
at sample index `i`, and the gain `processADSR` computes there is `i / 10` for `i < 10`,
`1 - 0.5 (i - 10) / 10` for `10 <= i < 20`, `0.5` for `20 <= i < 90` and
`0.5 (1 - (i - 90) / 10)` for `90 <= i < 100`. -/
theorem adsr_example (m : FloatMath K) (w : Windower K) (shape : Int)
    (params : WindowerParams K) (inputs : List K) (hshape : 10 ≤ shape)
    (hA : params.attackMs = 10) (hD : params.decayMs = 10) (hS : params.sustain = 0.5)
    (hR : params.releaseMs = 10) (hlen : inputs.length < 100) :
    ((Windower.startNewGrain (Windower.prepare w 1000) 0 shape 100 params).attackSamples = 10 ∧
      (Windower.startNewGrain (Windower.prepare w 1000) 0 shape 100 params).decaySamples = 10 ∧
      (Windower.startNewGrain (Windower.prepare w 1000) 0 shape 100 params).sustainSamples = 70 ∧
      (Windower.startNewGrain (Windower.prepare w 1000) 0 shape 100 params).releaseSamples = 10) ∧
    (Windower.processAll m
      (Windower.startNewGrain (Windower.prepare w 1000) 0 shape 100 params) inputs).1.active
        = true ∧
    (Windower.processAll m
      (Windower.startNewGrain (Windower.prepare w 1000) 0 shape 100 params) inputs).1.sampleIndex
        = (inputs.length : Int) ∧
    (Windower.processADSR (Windower.processAll m
      (Windower.startNewGrain (Windower.prepare w 1000) 0 shape 100 params) inputs).1).2 =
      if inputs.length < 10 then (inputs.length : K) / 10
      else if inputs.length < 20 then 1 - 0.5 * ((inputs.length : K) - 10) / 10
      else if inputs.length < 90 then 0.5
      else 0.5 * (1 - ((inputs.length : K) - 90) / 10) := by
  have hT := truncToInt_ten_ms (K := K)
  have hstart : ∀ w0 : Windower K,
      w0 = Windower.startNewGrain (Windower.prepare w 1000) 0 shape 100 params →
      w0.active = true ∧ w0.sampleIndex = 0 ∧ w0.length = 100 ∧ 10 ≤ w0.windowType ∧
      (w0.attackSamples = 10 ∧ w0.decaySamples = 10 ∧ w0.sustainSamples = 70 ∧
        w0.releaseSamples = 10) ∧
      w0.sustainLevel = 0.5 ∧ w0.envState = EnvState.Attack ∧ w0.envSample = 0 := by
    intro w0 h0
    subst h0
    simp [Windower.startNewGrain, Windower.setADSRStages, Windower.prepare, Windower.reset,
      hshape, hA, hD, hS, hR, hT, jlimit, stdMax]
  obtain ⟨s1, s2, s3, s4, s5, s6, s7, s8⟩ := hstart _ rfl
  have hrun := processAll_invariant m
    (fun (v : Windower K) (i : Int) =>
      v.active = true ∧ v.sampleIndex = i ∧ v.length = 100 ∧ 10 ≤ v.windowType ∧
      (v.attackSamples = 10 ∧ v.decaySamples = 10 ∧ v.sustainSamples = 70 ∧
        v.releaseSamples = 10) ∧
      v.sustainLevel = 0.5 ∧
      ((0 ≤ i ∧ i < 10 ∧ v.envState = EnvState.Attack ∧ v.envSample = i) ∨
        (10 ≤ i ∧ i < 20 ∧ v.envState = EnvState.Decay ∧ v.envSample = i - 10) ∨
        (20 ≤ i ∧ i < 90 ∧ v.envState = EnvState.Sustain ∧ v.envSample = i - 20) ∨
        (90 ≤ i ∧ i < 100 ∧ v.envState = EnvState.Release ∧ v.envSample = i - 90)))
    100
    (fun v x i ⟨a1, a2, a3, a4, a5, a6, a7⟩ hb =>
      adsr_example_step m v x i a1 a2 a3 a4 a5 a6 a7 hb)
    inputs (Windower.startNewGrain (Windower.prepare w 1000) 0 shape 100 params) 0
    ⟨s1, s2, s3, s4, s5, s6, Or.inl ⟨le_refl _, by decide, s7, s8⟩⟩
    (by omega)
  simp only [zero_add] at hrun
  obtain ⟨r1, r2, r3, r4, ⟨ra, rd, rs, rr⟩, r6, r7⟩ := hrun
  refine ⟨s5, r1, r2, ?_⟩
  rw [processADSR_value]
  rcases r7 with ⟨h0, h1, hst, he⟩ | ⟨h0, h1, hst, he⟩ | ⟨h0, h1, hst, he⟩ | ⟨h0, h1, hst, he⟩
  · have c1 : inputs.length < 10 := by omega
    simp [hst, he, ra, c1, stdMax]
  · have c1 : ¬ inputs.length < 10 := by omega
    have c2 : inputs.length < 20 := by omega
    simp [hst, he, rd, r6, c1, c2, stdMax]
    norm_num
  · have c1 : ¬ inputs.length < 10 := by omega
    have c2 : ¬ inputs.length < 20 := by omega
    have c3 : inputs.length < 90 := by omega
    simp [hst, r6, c1, c2, c3]
  · have c1 : ¬ inputs.length < 10 := by omega
    have c2 : ¬ inputs.length < 20 := by omega
    have c3 : ¬ inputs.length < 90 := by omega
    simp [hst, he, rr, r6, c1, c2, c3, stdMax]

/-- C5 at a concrete input over `ℚ`: after three samples of the example envelope the gain
computed is `3 / 10`. -/
theorem adsr_example_witness :
    (10 : Int) ≤ 10 ∧ ([1, 1, 1] : List ℚ).length < 100 ∧
    (Windower.processADSR (Windower.processAll ⟨fun _ => 0, fun _ => 0, fun _ _ => 0, 0⟩
      (Windower.startNewGrain (Windower.prepare (Windower.new : Windower ℚ) 1000) 0 10 100
        { (WindowerParams.new : WindowerParams ℚ) with
          attackMs := 10, decayMs := 10, sustain := 0.5, releaseMs := 10 })
      [1, 1, 1]).1).2 = 3 / 10 := by
  refine ⟨by decide, by decide, ?_⟩
  have h := adsr_example (⟨fun _ => 0, fun _ => 0, fun _ _ => 0, 0⟩ : FloatMath ℚ)
    (Windower.new : Windower ℚ) 10
    { (WindowerParams.new : WindowerParams ℚ) with
      attackMs := 10, decayMs := 10, sustain := 0.5, releaseMs := 10 }
    [1, 1, 1] (by decide) rfl rfl rfl rfl (by decide)
  simpa using h.2.2.2

end AdsrExample

section AdsrStages

variable {K : Type} [LinearOrderedField K] [FloorRing K]

/-- The stage counts that `startNewGrain` stores in ADSR mode, in terms of the integer sample
counts `A`, `D`, `R` that the attack, decay and release durations convert to. -/
theorem startNewGrain_stages (w : Windower K) (offset shape L : Int)
    (params : WindowerParams K) (A D R : Int) (hshape : 10 ≤ shape)
    (hA : truncToInt (params.attackMs * 0.001 * w.sampleRate) = A)
    (hD : truncToInt (params.decayMs * 0.001 * w.sampleRate) = D)
    (hR : truncToInt (params.releaseMs * 0.001 * w.sampleRate) = R) :
    (Windower.startNewGrain w offset shape L params).attackSamples = jlimit 1 L A ∧
    (Windower.startNewGrain w offset shape L params).decaySamples =
      jlimit 1 (L - jlimit 1 L A) D ∧
    (Windower.startNewGrain w offset shape L params).releaseSamples =
      jlimit 1 (L - jlimit 1 L A - jlimit 1 (L - jlimit 1 L A) D) R ∧
    (Windower.startNewGrain w offset shape L params).sustainSamples =
      stdMax (L - (jlimit 1 L A + jlimit 1 (L - jlimit 1 L A) D +
        jlimit 1 (L - jlimit 1 L A - jlimit 1 (L - jlimit 1 L A) D) R)) 1 := by
  simp [Windower.startNewGrain, Windower.setADSRStages, hshape, hA, hD, hR]

/-- The stage counts add up to at most the grain length exactly when the requested attack,
decay and release (each at least one sample) leave at least one sample for the sustain. -/
theorem adsr_stage_sum_le_iff (w : Windower K) (offset shape L : Int)
    (params : WindowerParams K) (A D R : Int) (hshape : 10 ≤ shape) (hL : 1 ≤ L)
    (hA : truncToInt (params.attackMs * 0.001 * w.sampleRate) = A)
    (hD : truncToInt (params.decayMs * 0.001 * w.sampleRate) = D)
    (hR : truncToInt (params.releaseMs * 0.001 * w.sampleRate) = R) :
    (Windower.startNewGrain w offset shape L params).attackSamples +
      (Windower.startNewGrain w offset shape L params).decaySamples +
      (Windower.startNewGrain w offset shape L params).sustainSamples +
      (Windower.startNewGrain w offset shape L params).releaseSamples ≤ L ↔
    max A 1 + max D 1 + max R 1 < L := by
  obtain ⟨e1, e2, e3, e4⟩ := startNewGrain_stages w offset shape L params A D R hshape hA hD hR
  rw [e1, e2, e3, e4]
  unfold jlimit stdMax
  split_ifs <;> omega

/-- With an upper limit that the request (raised to 1) fits under, `jlimit(1, u, x)` is
`max(x, 1)`. -/
theorem jlimit_one_eq_max {x u : Int} (h : max x 1 ≤ u) : jlimit 1 u x = max x 1 := by
  unfold jlimit
  split_ifs <;> omega

/-- C6, amended: in ADSR mode with total length `L`, when the attack, decay and release
sample counts `A`, `D`, `R`, each raised to at least 1, add up to less than `L` (so that
`L >= 4`), the stage counts are `max A 1`, `max D 1`, `max R 1` and the sustain takes the
rest: the four counts add up to `L` and no stage exceeds the length that remains after the
stages before it. -/
theorem adsr_stages_fit (w : Windower K) (offset shape L : Int)
    (params : WindowerParams K) (A D R : Int) (hshape : 10 ≤ shape)
    (hA : truncToInt (params.attackMs * 0.001 * w.sampleRate) = A)
    (hD : truncToInt (params.decayMs * 0.001 * w.sampleRate) = D)
    (hR : truncToInt (params.releaseMs * 0.001 * w.sampleRate) = R)
    (hfit : max A 1 + max D 1 + max R 1 < L) :
    (Windower.startNewGrain w offset shape L params).attackSamples = max A 1 ∧
    (Windower.startNewGrain w offset shape L params).decaySamples = max D 1 ∧
    (Windower.startNewGrain w offset shape L params).releaseSamples = max R 1 ∧
    (Windower.startNewGrain w offset shape L params).sustainSamples =
      L - (max A 1 + max D 1 + max R 1) ∧
    (Windower.startNewGrain w offset shape L params).attackSamples +
      (Windower.startNewGrain w offset shape L params).decaySamples +
      (Windower.startNewGrain w offset shape L params).sustainSamples +
      (Windower.startNewGrain w offset shape L params).releaseSamples ≤ L ∧
    (Windower.startNewGrain w offset shape L params).attackSamples ≤ L ∧
    (Windower.startNewGrain w offset shape L params).decaySamples ≤
      L - (Windower.startNewGrain w offset shape L params).attackSamples ∧
    (Windower.startNewGrain w offset shape L params).sustainSamples ≤
      L - (Windower.startNewGrain w offset shape L params).attackSamples -
        (Windower.startNewGrain w offset shape L params).decaySamples ∧
    (Windower.startNewGrain w offset shape L params).releaseSamples ≤
      L - (Windower.startNewGrain w offset shape L params).attackSamples -
        (Windower.startNewGrain w offset shape L params).decaySamples -
        (Windower.startNewGrain w offset shape L params).sustainSamples := by
  obtain ⟨e1, e2, e3, e4⟩ := startNewGrain_stages w offset shape L params A D R hshape hA hD hR
  have ha : jlimit 1 L A = max A 1 := jlimit_one_eq_max (by omega)
  have hd : jlimit 1 (L - max A 1) D = max D 1 := jlimit_one_eq_max (by omega)
  have hr : jlimit 1 (L - max A 1 - max D 1) R = max R 1 := jlimit_one_eq_max (by omega)
  have hs : stdMax (L - (max A 1 + max D 1 + max R 1)) 1 = L - (max A 1 + max D 1 + max R 1) := by
    unfold stdMax
    rw [if_neg (by omega)]
  rw [e1, e2, e3, e4, ha, hd, hr, hs]
  omega

/-- The conversion to `int` of a non-negative rational lying in `[z, z + 1)` is `z`. -/
theorem truncToInt_of_floor {x : ℚ} {z : Int} (h0 : 0 ≤ x) (h1 : (z : ℚ) ≤ x)
    (h2 : x < (z : ℚ) + 1) : truncToInt x = z := by
  unfold truncToInt
  rw [if_pos h0]
  exact Int.floor_eq_iff.2 ⟨h1, h2⟩

/-- C6 as stated fails: an ADSR grain of length 512 started on a default generator
(44100 Hz) with the default parameters (attack 2 ms, decay 10 ms, release 20 ms) gets the
stage counts 88, 424, sustain 1 and release 0, which add up to 513. -/
theorem adsr_stage_sum_exceeds :
    (1 : Int) ≤ 512 ∧
    (Windower.startNewGrain (Windower.new : Windower ℚ) 0 10 512 WindowerParams.new).attackSamples
      = 88 ∧
    (Windower.startNewGrain (Windower.new : Windower ℚ) 0 10 512 WindowerParams.new).decaySamples
      = 424 ∧
    (Windower.startNewGrain (Windower.new : Windower ℚ) 0 10 512 WindowerParams.new).sustainSamples
      = 1 ∧
    (Windower.startNewGrain (Windower.new : Windower ℚ) 0 10 512 WindowerParams.new).releaseSamples
      = 0 ∧
    ¬ ((Windower.startNewGrain (Windower.new : Windower ℚ) 0 10 512
          WindowerParams.new).attackSamples +
        (Windower.startNewGrain (Windower.new : Windower ℚ) 0 10 512
          WindowerParams.new).decaySamples +
        (Windower.startNewGrain (Windower.new : Windower ℚ) 0 10 512
          WindowerParams.new).sustainSamples +
        (Windower.startNewGrain (Windower.new : Windower ℚ) 0 10 512
          WindowerParams.new).releaseSamples ≤ 512) := by
  have hA : truncToInt ((WindowerParams.new : WindowerParams ℚ).attackMs * 0.001 *
      (Windower.new : Windower ℚ).sampleRate) = 88 :=
    truncToInt_of_floor (by norm_num [WindowerParams.new, Windower.new])
      (by norm_num [WindowerParams.new, Windower.new])
      (by norm_num [WindowerParams.new, Windower.new])
  have hD : truncToInt ((WindowerParams.new : WindowerParams ℚ).decayMs * 0.001 *
      (Windower.new : Windower ℚ).sampleRate) = 441 :=
    truncToInt_of_floor (by norm_num [WindowerParams.new, Windower.new])
      (by norm_num [WindowerParams.new, Windower.new])
      (by norm_num [WindowerParams.new, Windower.new])
  have hR : truncToInt ((WindowerParams.new : WindowerParams ℚ).releaseMs * 0.001 *
      (Windower.new : Windower ℚ).sampleRate) = 882 :=
    truncToInt_of_floor (by norm_num [WindowerParams.new, Windower.new])
      (by norm_num [WindowerParams.new, Windower.new])
      (by norm_num [WindowerParams.new, Windower.new])
  obtain ⟨e1, e2, e3, e4⟩ := startNewGrain_stages (Windower.new : Windower ℚ) 0 10 512
    WindowerParams.new 88 441 882 (by decide) hA hD hR
  rw [e1, e2, e3, e4]
  decide

/-- C6, amended, at a concrete input over `ℚ`: 10 ms stages at 1000 Hz in a grain of 100
samples. -/
theorem adsr_stages_fit_witness :
    (10 : Int) ≤ 10 ∧ max (10 : Int) 1 + max 10 1 + max 10 1 < 100 ∧
    (Windower.startNewGrain (Windower.prepare (Windower.new : Windower ℚ) 1000) 0 10 100
      { (WindowerParams.new : WindowerParams ℚ) with
        attackMs := 10, decayMs := 10, releaseMs := 10 }).sustainSamples = 70 := by
  refine ⟨by decide, by decide, ?_⟩
  have h := adsr_stages_fit (Windower.prepare (Windower.new : Windower ℚ) 1000) 0 10 100
    { (WindowerParams.new : WindowerParams ℚ) with
      attackMs := 10, decayMs := 10, releaseMs := 10 }
    10 10 10 (by decide) truncToInt_ten_ms truncToInt_ten_ms truncToInt_ten_ms
    (by decide)
  exact h.2.2.2.1

end AdsrStages

section GrainStart

variable {K : Type} [LinearOrderedField K] [FloorRing K]

omit [FloorRing K] in
/-- The members `sampleIndex`, `length`, `windowType` and `active` are not written by
`processADSR`. -/
theorem processADSR_frame (w : Windower K) :
    (Windower.processADSR w).1.sampleIndex = w.sampleIndex ∧
    (Windower.processADSR w).1.length = w.length ∧
    (Windower.processADSR w).1.windowType = w.windowType ∧
    (Windower.processADSR w).1.active = w.active := by
  unfold Windower.processADSR
  cases w.envState <;>
    first
    | exact ⟨rfl, rfl, rfl, rfl⟩
    | (dsimp only; split <;> exact ⟨rfl, rfl, rfl, rfl⟩)

omit [FloorRing K] in
/-- One `process` call keeps the length, and keeps the index inside the window while the
generator is active. -/
theorem process_index_in_range (m : FloatMath K) (w : Windower K) (x : K)
    (h : w.active = true → 0 ≤ w.sampleIndex ∧ w.sampleIndex < w.length) :
    (Windower.process m w x).1.length = w.length ∧
    ((Windower.process m w x).1.active = true →
      0 ≤ (Windower.process m w x).1.sampleIndex ∧
      (Windower.process m w x).1.sampleIndex < (Windower.process m w x).1.length) := by
  by_cases hact : w.active = true
  · obtain ⟨h0, h1⟩ := h hact
    by_cases hshape : 10 ≤ w.windowType
    · obtain ⟨f1, f2, f3, f4⟩ := processADSR_frame w
      rw [process_adsr_step m w x hact hshape]
      split
      · exact ⟨f2, fun hc => by simp at hc⟩
      · rename_i hcond
        simp only [f1, f2] at hcond ⊢
        exact ⟨trivial, fun _ => ⟨by omega, by omega⟩⟩
    · rw [process_window_step m w x hact (by omega)]
      split
      · exact ⟨rfl, fun hc => by simp at hc⟩
      · exact ⟨rfl, fun _ => ⟨by dsimp only; omega, by dsimp only; omega⟩⟩
  · have hp : Windower.process m w x = (w, 0) := by
      simp [Windower.process, hact]
    rw [hp]
    exact ⟨rfl, fun hc => absurd hc hact⟩

omit [FloorRing K] in
/-- Any run of `process` calls keeps the length, and keeps the index inside the window
while the generator is active. -/
theorem processAll_index_in_range (m : FloatMath K) (inputs : List K) :
    ∀ w : Windower K, (w.active = true → 0 ≤ w.sampleIndex ∧ w.sampleIndex < w.length) →
      (Windower.processAll m w inputs).1.length = w.length ∧
      ((Windower.processAll m w inputs).1.active = true →
        0 ≤ (Windower.processAll m w inputs).1.sampleIndex ∧
        (Windower.processAll m w inputs).1.sampleIndex <
          (Windower.processAll m w inputs).1.length) := by
  induction inputs with
  | nil =>
    intro w h
    exact ⟨rfl, h⟩
  | cons x xs ih =>
    intro w h
    obtain ⟨h1, h2⟩ := process_index_in_range m w x h
    obtain ⟨h3, h4⟩ := ih (Windower.process m w x).1 h2
    simp only [Windower.processAll]
    exact ⟨h3.trans h1, h4⟩

/-- The start of a grain with a length of at least 1, where the index contract holds: for
every offset and every `lengthSamples >= 1`, `startNewGrain` stores that
length and the sample index `clamp(offset, 0, length - 1)`, leaves the generator active, and
after any number of later `process` calls the length is the same and the generator, whenever
it is active, satisfies `0 <= sampleIndex < length`. -/
theorem startNewGrain_index_in_range (m : FloatMath K) (w : Windower K)
    (offset shape L : Int) (params : WindowerParams K) (inputs : List K) (hL : 1 ≤ L) :
    (Windower.startNewGrain w offset shape L params).length = L ∧
    1 ≤ (Windower.startNewGrain w offset shape L params).length ∧
    (Windower.startNewGrain w offset shape L params).sampleIndex = max 0 (min offset (L - 1)) ∧
    (Windower.startNewGrain w offset shape L params).active = true ∧
    (Windower.processAll m (Windower.startNewGrain w offset shape L params) inputs).1.length
      = L ∧
    ((Windower.processAll m (Windower.startNewGrain w offset shape L params) inputs).1.active
        = true →
      0 ≤ (Windower.processAll m
        (Windower.startNewGrain w offset shape L params) inputs).1.sampleIndex ∧
      (Windower.processAll m
        (Windower.startNewGrain w offset shape L params) inputs).1.sampleIndex <
        (Windower.processAll m
          (Windower.startNewGrain w offset shape L params) inputs).1.length) := by
  have hlen : (Windower.startNewGrain w offset shape L params).length = L := by
    simp only [Windower.startNewGrain, Windower.setADSRStages]
    split <;> rfl
  have hidx : (Windower.startNewGrain w offset shape L params).sampleIndex =
      max 0 (min offset (L - 1)) := by
    have hj : jlimit 0 (L - 1) offset = max 0 (min offset (L - 1)) := by
      unfold jlimit
      split_ifs <;> omega
    simp only [Windower.startNewGrain, Windower.setADSRStages]
    split <;> exact hj
  have hact : (Windower.startNewGrain w offset shape L params).active = true := by
    simp only [Windower.startNewGrain, Windower.setADSRStages]
    split <;> rfl
  obtain ⟨h1, h2⟩ := processAll_index_in_range m inputs
    (Windower.startNewGrain w offset shape L params)
    (fun _ => by rw [hidx, hlen]; omega)
  exact ⟨hlen, by omega, hidx, hact, h1.trans hlen, h2⟩

/-- C7 at a failing input: `startNewGrain(0, 0, 0)` stores the length 0 as given and leaves
the generator active, in window mode, at sample index `jlimit(0, -1, 0) = -1`; the next
`process` call passes this index and length to `evaluateWindow`, whose assertion
`sampleIdx >= 0 && sampleIdx < length` they violate. -/
theorem startNewGrain_length_unclamped :
    (Windower.startNewGrain (Windower.new : Windower ℚ) 0 0 0 WindowerParams.new).length = 0 ∧
    ¬ (1 ≤ (Windower.startNewGrain (Windower.new : Windower ℚ) 0 0 0 WindowerParams.new).length) ∧
    (Windower.startNewGrain (Windower.new : Windower ℚ) 0 0 0 WindowerParams.new).active = true ∧
    (Windower.startNewGrain (Windower.new : Windower ℚ) 0 0 0 WindowerParams.new).sampleIndex
      = -1 ∧
    ¬ (0 ≤ (Windower.startNewGrain (Windower.new : Windower ℚ) 0 0 0
      WindowerParams.new).sampleIndex) ∧
    (Windower.startNewGrain (Windower.new : Windower ℚ) 0 0 0 WindowerParams.new).windowType
      = 0 ∧
    ¬ (0 ≤ (Windower.startNewGrain (Windower.new : Windower ℚ) 0 0 0
          WindowerParams.new).sampleIndex ∧
      (Windower.startNewGrain (Windower.new : Windower ℚ) 0 0 0
          WindowerParams.new).sampleIndex <
        (Windower.startNewGrain (Windower.new : Windower ℚ) 0 0 0 WindowerParams.new).length) := by
  simp [Windower.startNewGrain, jlimit, Windower.new]

/-- The start of a grain at a concrete input over `ℚ`: a Triangle grain of length 4 started at offset
9 and run for two samples. -/
theorem startNewGrain_index_in_range_witness :
    (1 : Int) ≤ 4 ∧
    (Windower.startNewGrain (Windower.new : Windower ℚ) 9 1 4 WindowerParams.new).sampleIndex
      = 3 ∧
    (Windower.processAll ⟨fun _ => 0, fun _ => 0, fun _ _ => 0, 0⟩
      (Windower.startNewGrain (Windower.new : Windower ℚ) 9 1 4 WindowerParams.new)
      [1, 1]).1.length = 4 :=
  ⟨by decide,
    (startNewGrain_index_in_range ⟨fun _ => 0, fun _ => 0, fun _ _ => 0, 0⟩
      (Windower.new : Windower ℚ) 9 1 4 WindowerParams.new [1, 1] (by decide)).2.2.1,
    (startNewGrain_index_in_range ⟨fun _ => 0, fun _ => 0, fun _ _ => 0, 0⟩
      (Windower.new : Windower ℚ) 9 1 4 WindowerParams.new [1, 1] (by decide)).2.2.2.2.1⟩

end GrainStart

/-! ## Verification: rounding to `float` -/

section FloatRounding

variable {K : Type} [LinearOrderedField K] [FloorRing K]

/-- Rounding to nearest even of a number less than a half above the integer `f`. -/
theorem roundHalfEven_of_lt_half {x : K} {f : Int} (h1 : (f : K) ≤ x)
    (h2 : x < (f : K) + 1 / 2) : roundHalfEven x = f := by
  have hf : ⌊x⌋ = f := Int.floor_eq_iff.2 ⟨h1, by linarith⟩
  unfold roundHalfEven
  rw [hf, if_pos (by linarith)]

end FloatRounding

/-! ## Verification: the random gate -/

section RandomGate

variable {K : Type} [LinearOrderedField K] [FloorRing K]

omit [LinearOrderedField K] [FloorRing K] in
/-- After `resize(n)` the vector has `n` elements. -/
theorem vectorResize_length (buf : List Int) (n : Nat) :
    (TimedRandomGate.vectorResize buf n).length = n := by
  simp only [TimedRandomGate.vectorResize, List.length_append, List.length_take,
    List.length_replicate]
  omega

/-- C8 at a failing input: a gate constructed with sample rate 1 has a buffer of one entry
but keeps the loop length 44100 of the member initializer, so `loopLength <= sampleRate`
fails; the first call of `shouldRandomizeThisSample` moves the cursor to 1 and the second
call reads the buffer outside its bounds. -/
theorem loopLength_exceeds_sampleRate :
    ∃ (g g1 : TimedRandomGate ℚ),
      TimedRandomGate.construct 1 0 12345 = some (g, 12346) ∧
      g.sampleRate = 1 ∧ g.modBuffer = [1] ∧ g.loopLength = 44100 ∧
      ¬ (g.loopLength ≤ g.sampleRate) ∧
      TimedRandomGate.shouldRandomizeThisSample g = some (g1, true) ∧
      g1.modPosition = 1 ∧
      TimedRandomGate.shouldRandomizeThisSample g1 = none :=
  ⟨_, _, rfl, rfl, rfl, rfl, by decide, rfl, rfl, rfl⟩

end RandomGate

section FlipSpec

variable {K : Type} [LinearOrderedField K]

/-- C11: `possiblyFlip(v)` for a gate value `v` in {0, 1}, a cursor inside the buffer (reading
the entry `b`), a loop length of at least 1 and a draw `u` in [0, 1). The call succeeds and
advances the cursor once, to `(modPosition + 1) mod loopLength`, leaving the buffer, the loop
length, the sample rate and the randomness as they were. It returns the negation of `v`
(true exactly for `v = 0`) when the cursor was on the allow-slot (`b = 1`) and
`u < randomness ^ 1.5`, and `v` itself (true exactly for `v = 1`) otherwise; the two results
differ. With randomness 0, where `pow(0, 1.5) = 0`, it returns `v`. -/
theorem possiblyFlip_spec (m : FloatMath K) (g : TimedRandomGate K) (v b : Int) (u : K)
    (hv : v = 0 ∨ v = 1) (hu : 0 ≤ u ∧ u < 1)
    (hslot : TimedRandomGate.bufferAt g.modBuffer g.modPosition = some b)
    (hL : 1 ≤ g.loopLength) :
    ∃ (g' : TimedRandomGate K) (r : Bool),
      TimedRandomGate.possiblyFlip m g v u = some (g', r) ∧
      g'.modPosition = (g.modPosition + 1) % g.loopLength ∧
      g'.modBuffer = g.modBuffer ∧ g'.loopLength = g.loopLength ∧
      g'.sampleRate = g.sampleRate ∧ g'.randomnessStrength = g.randomnessStrength ∧
      r = (if b = 1 ∧ u < m.pow g.randomnessStrength 1.5 then decide (v = 0)
        else decide (v = 1)) ∧
      decide (v = 0) = !decide (v = 1) ∧
      (g.randomnessStrength = 0 → m.pow 0 1.5 = 0 → r = decide (v = 1)) := by
  have hpos : 0 ≤ g.modPosition := by
    by_contra hneg
    simp [TimedRandomGate.bufferAt, hneg] at hslot
  have hL0 : g.loopLength ≠ 0 := by omega
  have hmod : Int.tmod (g.modPosition + 1) g.loopLength = (g.modPosition + 1) % g.loopLength :=
    Int.tmod_eq_emod (by omega) (by omega)
  have hneg : decide (v = 0) = !decide (v = 1) := by
    rcases hv with h | h <;> subst h <;> decide
  have hshould : TimedRandomGate.shouldRandomizeThisSample g =
      some ({ g with modPosition := (g.modPosition + 1) % g.loopLength }, b == 1) := by
    simp only [TimedRandomGate.shouldRandomizeThisSample, hslot, if_neg hL0, hmod]
  by_cases hb : b = 1
  · have hb1 : (b == 1) = true := by simp [hb]
    have hres : TimedRandomGate.possiblyFlip m g v u =
        some ({ g with
            modPosition := (g.modPosition + 1) % g.loopLength
            rngDraws := g.rngDraws + 1 },
          (if decide (u < m.pow g.randomnessStrength 1.5) = true then
            (if v = 0 then (1 : Int) else 0) else v) == 1) := by
      simp only [TimedRandomGate.possiblyFlip, hshould, hb1]
    refine ⟨_, _, hres, rfl, rfl, rfl, rfl, rfl, ?_, hneg, ?_⟩
    · by_cases hflip : u < m.pow g.randomnessStrength 1.5
      · rcases hv with h | h <;> subst h <;> simp [hb, hflip]
      · rcases hv with h | h <;> subst h <;> simp [hflip]
    · intro hr hp
      have hflip : ¬ u < m.pow g.randomnessStrength 1.5 := by
        rw [hr, hp]
        exact not_lt.2 hu.1
      rcases hv with h | h <;> subst h <;> simp [hflip]
  · have hb1 : (b == 1) = false := by simp [hb]
    have hres : TimedRandomGate.possiblyFlip m g v u =
        some ({ g with modPosition := (g.modPosition + 1) % g.loopLength }, v == 1) := by
      simp only [TimedRandomGate.possiblyFlip, hshould, hb1]
    refine ⟨_, _, hres, rfl, rfl, rfl, rfl, rfl, ?_, hneg, ?_⟩
    · rw [if_neg (fun h => hb h.1)]
      rcases hv with h | h <;> subst h <;> decide
    · intro _ _
      rcases hv with h | h <;> subst h <;> decide

/-- C11 at a concrete input over `ℚ`: cursor on the allow-slot of a loop of length 2,
randomness 1/2 (shaped chance 1/2 with the stand-in `pow x y = x`), draw 1/4, gate value 1:
the value is flipped (the call returns false) and the cursor moves to 1. -/
theorem possiblyFlip_spec_witness :
    ((1 : Int) = 0 ∨ (1 : Int) = 1) ∧ ((0 : ℚ) ≤ 1 / 4 ∧ (1 / 4 : ℚ) < 1) ∧
    ∃ (g' : TimedRandomGate ℚ) (r : Bool),
      TimedRandomGate.possiblyFlip ⟨fun _ => 0, fun _ => 0, fun x _ => x, 0⟩
        ({ modBuffer := [1, 0], modPosition := 0, sampleRate := 2, loopLength := 2,
           randomnessStrength := 1 / 2, rngSeed := 0, rngDraws := 0 } : TimedRandomGate ℚ)
        1 (1 / 4) = some (g', r) ∧
      g'.modPosition = 1 ∧ r = false := by
  refine ⟨by decide, by norm_num, ?_⟩
  obtain ⟨g', r, h1, h2, -, -, -, -, h3, -, -⟩ := possiblyFlip_spec
    (⟨fun _ => 0, fun _ => 0, fun x _ => x, 0⟩ : FloatMath ℚ)
    ({ modBuffer := [1, 0], modPosition := 0, sampleRate := 2, loopLength := 2,
       randomnessStrength := 1 / 2, rngSeed := 0, rngDraws := 0 } : TimedRandomGate ℚ) 1 1 (1 / 4)
    (by decide) (by norm_num) rfl (by decide)
  refine ⟨g', r, h1, by simpa using h2, ?_⟩
  rw [h3]
  norm_num

end FlipSpec

section OneHot

variable {K : Type} [LinearOrderedField K]

omit [LinearOrderedField K] in
/-- The buffer that `setSampleRate` leaves for a sample rate of at least 1: the allow marker
followed by zeros, `sr` entries in all, whatever the buffer held before. -/
theorem setSampleRate_buffer (g : TimedRandomGate K) (sr : Int) (hsr : 1 ≤ sr) :
    TimedRandomGate.setSampleRate g sr =
      some { g with sampleRate := sr, modBuffer := 1 :: List.replicate (sr.toNat - 1) 0 } := by
  have hneg : ¬ sr < 0 := by omega
  have hmap : List.map (fun _ => (0 : Int)) (TimedRandomGate.vectorResize g.modBuffer sr.toNat) =
      List.replicate sr.toNat 0 := by
    rw [List.map_const', vectorResize_length]
  obtain ⟨k, hk⟩ : ∃ k : Nat, sr.toNat = k + 1 := ⟨sr.toNat - 1, by omega⟩
  simp only [TimedRandomGate.setSampleRate, if_neg hneg, TimedRandomGate.fillOneHotBuffer, hmap]
  rw [hk]
  simp [List.replicate_succ]

/-- The one-hot buffer for a sample rate of at least 1, where the buffer contract holds: for
every integer `sr >= 1`, `setSampleRate(sr)` on any gate, and
construction with `sr`, succeed and leave the sample rate `sr` and a non-empty buffer of `sr`
entries that holds exactly one allow marker, at index 0, every other entry being 0. -/
theorem setSampleRate_one_hot (g : TimedRandomGate K) (sr : Int) (deviceSeed defaultSeed : Nat)
    (hsr : 1 ≤ sr) :
    (∃ g1 : TimedRandomGate K, TimedRandomGate.setSampleRate g sr = some g1 ∧
      g1.sampleRate = sr ∧ g1.modBuffer = 1 :: List.replicate (sr.toNat - 1) 0 ∧
      g1.modBuffer ≠ [] ∧ (g1.modBuffer.length : Int) = sr ∧ g1.modBuffer.count 1 = 1) ∧
    (∃ g2 : TimedRandomGate K,
      TimedRandomGate.construct sr deviceSeed defaultSeed = some (g2, defaultSeed + 1) ∧
      g2.sampleRate = sr ∧ g2.modBuffer = 1 :: List.replicate (sr.toNat - 1) 0) := by
  have hcount : (1 :: List.replicate (sr.toNat - 1) (0 : Int)).count 1 = 1 := by
    simp [List.count_cons, List.count_replicate]
  have hlen : (((1 : Int) :: List.replicate (sr.toNat - 1) 0).length : Int) = sr := by
    simp only [List.length_cons, List.length_replicate]
    omega
  refine ⟨⟨_, setSampleRate_buffer g sr hsr, rfl, rfl, by simp, hlen, hcount⟩, ?_⟩
  refine ⟨TimedRandomGate.seed
    { (TimedRandomGate.members deviceSeed : TimedRandomGate K) with
      sampleRate := sr, modBuffer := 1 :: List.replicate (sr.toNat - 1) 0 } defaultSeed,
    ?_, rfl, rfl⟩
  simp only [TimedRandomGate.construct,
    setSampleRate_buffer (TimedRandomGate.members deviceSeed : TimedRandomGate K) sr hsr]

/-- C12 at a failing input: `setSampleRate(0)` resizes the buffer to no entries and
then writes `modBuffer[0]`, outside the vector, so neither the call nor a construction with 0
yields a gate with a non-empty buffer. -/
theorem setSampleRate_zero_undefined :
    TimedRandomGate.setSampleRate (TimedRandomGate.members 0 : TimedRandomGate ℚ) 0 = none ∧
    (TimedRandomGate.construct 0 0 12345 : Option (TimedRandomGate ℚ × Nat)) = none ∧
    ¬ ∃ g1 : TimedRandomGate ℚ,
      TimedRandomGate.setSampleRate (TimedRandomGate.members 0 : TimedRandomGate ℚ) 0 = some g1 ∧
      g1.modBuffer ≠ [] := by
  refine ⟨rfl, rfl, ?_⟩
  rintro ⟨g1, h, -⟩
  have h0 : TimedRandomGate.setSampleRate (TimedRandomGate.members 0 : TimedRandomGate ℚ) 0
      = none := rfl
  rw [h0] at h
  exact Option.noConfusion h

/-- The one-hot buffer at a concrete input over `ℚ`: sample rate 3. -/
theorem setSampleRate_one_hot_witness :
    (1 : Int) ≤ 3 ∧
    ∃ g1 : TimedRandomGate ℚ,
      TimedRandomGate.setSampleRate (TimedRandomGate.members 0) 3 = some g1 ∧
      g1.modBuffer = [1, 0, 0] :=
  ⟨by decide,
    (setSampleRate_one_hot (TimedRandomGate.members 0 : TimedRandomGate ℚ) 3 0 12345
      (by decide)).1.imp fun _ h => ⟨h.1, h.2.2.1⟩⟩

end OneHot

/-! ## Verification: preparing and resetting the pool -/

section PrepareRate

variable {K : Type} [LinearOrderedField K] [FloorRing K]

omit [LinearOrderedField K] [FloorRing K] in
/-- The generator's own `prepare` stores the rate it is given. -/
theorem windower_prepare_sampleRate (w : Windower K) (sr : K) :
    (Windower.prepare w sr).sampleRate = sr := rfl

omit [FloorRing K] in
/-- After the pool's `prepare`, every voice holds a default generator, whose stored rate is
the member initializer 44100, whatever rate was passed. -/
theorem pool_prepare_sampleRate (g : GrainGate K) (sr : K) (i : Fin grainsInPool) :
    ((GrainGate.prepare g sr).pool i).window = Windower.new ∧
    ((GrainGate.prepare g sr).pool i).window.sampleRate = 44100 :=
  ⟨rfl, rfl⟩

/-- C13 at 48000 Hz: the generator's `prepare(48000)` stores 48000, but after the pool's
`prepare(48000)` every voice's generator holds 44100; an ADSR grain triggered afterwards
(default attack 2 ms) gets 88 attack samples, the count for 44100 Hz, where 48000 Hz gives
96. -/
theorem prepare_discards_sampleRate :
    (Windower.prepare (Windower.new : Windower ℚ) 48000).sampleRate = 48000 ∧
    (∀ i : Fin grainsInPool,
      ((GrainGate.prepare (GrainGate.new : GrainGate ℚ) 48000).pool i).window.sampleRate
        = 44100) ∧
    (∃ g1 : GrainGate ℚ,
      GrainGate.triggerGrain (GrainGate.prepare (GrainGate.new : GrainGate ℚ) 48000)
        10 4800 false 48000 = some g1 ∧
      (g1.pool 0).window.sampleRate = 44100 ∧
      (g1.pool 0).window.attackSamples = 88) ∧
    truncToInt ((WindowerParams.new : WindowerParams ℚ).attackMs * 0.001 * 48000) = 96 := by
  have hA : truncToInt ((WindowerParams.new : WindowerParams ℚ).attackMs * 0.001 *
      (Windower.new : Windower ℚ).sampleRate) = 88 :=
    truncToInt_of_floor (by norm_num [WindowerParams.new, Windower.new])
      (by norm_num [WindowerParams.new, Windower.new])
      (by norm_num [WindowerParams.new, Windower.new])
  have h96 : truncToInt ((WindowerParams.new : WindowerParams ℚ).attackMs * 0.001 * 48000) = 96 :=
    truncToInt_of_floor (by norm_num [WindowerParams.new])
      (by norm_num [WindowerParams.new]) (by norm_num [WindowerParams.new])
  refine ⟨rfl, fun _ => rfl, ?_, h96⟩
  have hstep := triggerGrain_at_free_cursor
    (GrainGate.prepare (GrainGate.new : GrainGate ℚ) 48000) 10 4800 false 48000 0 rfl rfl
  refine ⟨_, hstep, ?_, ?_⟩
  · dsimp only
    rw [Function.update_same]
    rfl
  · dsimp only
    rw [Function.update_same]
    have h := (startNewGrain_stages (Windower.new : Windower ℚ) 0 10 4800 WindowerParams.new
      88 _ _ (by decide) hA rfl rfl).1
    have hj : jlimit 1 4800 (88 : Int) = 88 := by decide
    rw [hj] at h
    exact h

end PrepareRate

section ResetPrepare

variable {K : Type} [LinearOrderedField K]

/-- C14: for every pool state `g` (in particular every state reached by `triggerGrain` and
`process` calls) and every sample rate, `reset()` followed by `prepare(sampleRate)` gives the
same pool as `prepare(sampleRate)` on a freshly constructed pool: the cursor and each of the
32 voices, with every member of the voice and of its generator, are equal; both pools have
cursor 0 and 32 default voices. -/
theorem reset_prepare_eq_fresh (g : GrainGate K) (sampleRate : K) :
    GrainGate.prepare (GrainGate.reset g) sampleRate =
      GrainGate.prepare GrainGate.new sampleRate ∧
    (GrainGate.prepare (GrainGate.reset g) sampleRate).nextGrainIndex =
      (GrainGate.prepare (GrainGate.new : GrainGate K) sampleRate).nextGrainIndex ∧
    (∀ i : Fin grainsInPool,
      (GrainGate.prepare (GrainGate.reset g) sampleRate).pool i =
        (GrainGate.prepare (GrainGate.new : GrainGate K) sampleRate).pool i) ∧
    (GrainGate.prepare (GrainGate.reset g) sampleRate).nextGrainIndex = 0 ∧
    ∀ i : Fin grainsInPool,
      (GrainGate.prepare (GrainGate.reset g) sampleRate).pool i = PoolGrain.new :=
  ⟨rfl, rfl, fun _ => rfl, rfl, fun _ => rfl⟩

end ResetPrepare

/-! ## Verification: window values over the reals -/

section WindowValues



/-- C15: over the reals, for every odd length `L >= 3`, the gain that `evaluateWindow` gives
at the sample indices `0`, `(L - 1) / 2` and `L - 1` is 0, 1 and 0 for the Hann shape (0) and
for the Triangle shape (1), and the gain of the Rectangular shape (3) is 1 at every index
`0 <= i < L`. -/
theorem window_values (L : Int) (hL : 3 ≤ L) (hodd : L % 2 = 1) :
    Windower.evaluateWindow (⟨Real.cos, Real.exp, Real.rpow, 2 * Real.pi⟩ : FloatMath ℝ)
      0 L 0 = 0 ∧
    Windower.evaluateWindow (⟨Real.cos, Real.exp, Real.rpow, 2 * Real.pi⟩ : FloatMath ℝ)
      ((L - 1) / 2) L 0 = 1 ∧
    Windower.evaluateWindow (⟨Real.cos, Real.exp, Real.rpow, 2 * Real.pi⟩ : FloatMath ℝ)
      (L - 1) L 0 = 0 ∧
    Windower.evaluateWindow (⟨Real.cos, Real.exp, Real.rpow, 2 * Real.pi⟩ : FloatMath ℝ)
      0 L 1 = 0 ∧
    Windower.evaluateWindow (⟨Real.cos, Real.exp, Real.rpow, 2 * Real.pi⟩ : FloatMath ℝ)
      ((L - 1) / 2) L 1 = 1 ∧
    Windower.evaluateWindow (⟨Real.cos, Real.exp, Real.rpow, 2 * Real.pi⟩ : FloatMath ℝ)
      (L - 1) L 1 = 0 ∧
    ∀ i : Int, 0 ≤ i → i < L →
      Windower.evaluateWindow (⟨Real.cos, Real.exp, Real.rpow, 2 * Real.pi⟩ : FloatMath ℝ)
        i L 3 = 1 := by
  obtain ⟨k, hk⟩ : ∃ k : Int, L = 2 * k + 1 := ⟨L / 2, by omega⟩
  have hk1 : 1 ≤ k := by omega
  have hmid : (L - 1) / 2 = k := by omega
  have hlast : L - 1 = 2 * k := by omega
  have hkpos : (0 : ℝ) < (k : ℝ) := by exact_mod_cast (by omega : (0 : Int) < k)
  have hkne : (k : ℝ) ≠ 0 := ne_of_gt hkpos
  have p0 : ((0 : Int) : ℝ) / ((2 * k : Int) : ℝ) = 0 := by simp
  have p1 : ((k : Int) : ℝ) / ((2 * k : Int) : ℝ) = 1 / 2 := by
    push_cast
    field_simp
    ring
  have p2 : ((2 * k : Int) : ℝ) / ((2 * k : Int) : ℝ) = 1 := by
    push_cast
    field_simp
  have c1 : Real.cos (2 * Real.pi * (1 / 2)) = -1 := by
    rw [show 2 * Real.pi * (1 / 2) = Real.pi by ring]
    exact Real.cos_pi
  have c2 : Real.cos (2 * Real.pi * 1) = 1 := by
    rw [mul_one]
    exact Real.cos_two_pi
  rw [hmid]
  simp only [Windower.evaluateWindow, hlast, p0, p1, p2, c1, c2, mul_zero, Real.cos_zero]
  refine ⟨?_, ?_, ?_, ?_, ?_, ?_, ?_⟩
  · norm_num
  · norm_num
  · norm_num
  · norm_num
  · norm_num
  · norm_num
  · intro i _ _
    norm_num

/-- C15 at a concrete input: length 5, whose middle index is 2. -/
theorem window_values_witness :
    (3 : Int) ≤ 5 ∧ (5 : Int) % 2 = 1 ∧
    Windower.evaluateWindow (⟨Real.cos, Real.exp, Real.rpow, 2 * Real.pi⟩ : FloatMath ℝ)
      ((5 - 1) / 2) 5 0 = 1 ∧
    Windower.evaluateWindow (⟨Real.cos, Real.exp, Real.rpow, 2 * Real.pi⟩ : FloatMath ℝ)
      (5 - 1) 5 1 = 0 :=
  ⟨by decide, by decide, (window_values 5 (by decide) (by decide)).2.1,
    (window_values 5 (by decide) (by decide)).2.2.2.2.2.1⟩

end WindowValues

/-! ## Verification: the ADSR state machine -/

section AdsrMachine

variable {K : Type} [LinearOrderedField K]

/-- The stage counts are not written by `processADSR`. -/
theorem processADSR_counts (w : Windower K) :
    (Windower.processADSR w).1.attackSamples = w.attackSamples ∧
    (Windower.processADSR w).1.decaySamples = w.decaySamples ∧
    (Windower.processADSR w).1.sustainSamples = w.sustainSamples ∧
    (Windower.processADSR w).1.releaseSamples = w.releaseSamples := by
  unfold Windower.processADSR
  cases w.envState <;>
    first
    | exact ⟨rfl, rfl, rfl, rfl⟩
    | (dsimp only; split <;> exact ⟨rfl, rfl, rfl, rfl⟩)

/-- One envelope step keeps the stage or moves it to the next one in the order
Attack, Decay, Sustain, Release, Idle. -/
theorem processADSR_stage (w : Windower K) :
    (Windower.processADSR w).1.envState = w.envState ∨
    (w.envState = EnvState.Attack ∧ (Windower.processADSR w).1.envState = EnvState.Decay) ∨
    (w.envState = EnvState.Decay ∧ (Windower.processADSR w).1.envState = EnvState.Sustain) ∨
    (w.envState = EnvState.Sustain ∧ (Windower.processADSR w).1.envState = EnvState.Release) ∨
    (w.envState = EnvState.Release ∧ (Windower.processADSR w).1.envState = EnvState.Idle) := by
  unfold Windower.processADSR
  cases h : w.envState <;> dsimp only
  · left; rfl
  · split
    · right; left; exact ⟨rfl, rfl⟩
    · left; simp
  · split
    · right; right; left; exact ⟨rfl, rfl⟩
    · left; simp
  · split
    · right; right; right; left; exact ⟨rfl, rfl⟩
    · left; simp
  · split
    · right; right; right; right; exact ⟨rfl, rfl⟩
    · left; simp

/-- A generator whose envelope is Idle keeps it Idle under `process`. -/
theorem process_idle (m : FloatMath K) (w : Windower K) (x : K)
    (h : w.envState = EnvState.Idle) :
    (Windower.process m w x).1.envState = EnvState.Idle := by
  have hadsr : (Windower.processADSR w).1.envState = EnvState.Idle := by
    simp [Windower.processADSR, h]
  unfold Windower.process
  split
  · exact h
  · dsimp only
    split <;> split <;> first | exact hadsr | exact h

/-- A generator whose envelope is Idle keeps it Idle under any run of `process` calls. -/
theorem processAll_idle (m : FloatMath K) (inputs : List K) :
    ∀ w : Windower K, w.envState = EnvState.Idle →
      (Windower.processAll m w inputs).1.envState = EnvState.Idle := by
  induction inputs with
  | nil => intro w h; exact h
  | cons x xs ih =>
    intro w h
    simp only [Windower.processAll]
    exact ih _ (process_idle m w x h)

/-- The state to which one envelope step leads, stage by stage. -/
theorem processADSR_state (w : Windower K) :
    (Windower.processADSR w).1 =
      match w.envState with
      | EnvState.Attack =>
        if w.envSample + 1 ≥ w.attackSamples then
          { w with envSample := 0, envState := EnvState.Decay }
        else { w with envSample := w.envSample + 1 }
      | EnvState.Decay =>
        if w.envSample + 1 ≥ w.decaySamples then
          { w with envSample := 0, envState := EnvState.Sustain }
        else { w with envSample := w.envSample + 1 }
      | EnvState.Sustain =>
        if w.envSample + 1 ≥ w.sustainSamples then
          { w with envSample := 0, envState := EnvState.Release }
        else { w with envSample := w.envSample + 1 }
      | EnvState.Release =>
        if w.envSample + 1 ≥ w.releaseSamples then
          { w with envSample := w.envSample + 1, envState := EnvState.Idle }
        else { w with envSample := w.envSample + 1 }
      | EnvState.Idle => { w with envState := EnvState.Idle } := by
  unfold Windower.processADSR
  cases w.envState <;> dsimp only <;> (try split) <;> rfl

/-- The envelope after `k` steps from the start of the attack, for stage counts `a`, `d`,
`s`, `r` of at least 1: Attack for `k < a`, Decay for `a <= k < a + d`, Sustain for
`a + d <= k < a + d + s`, Release for `a + d + s <= k < a + d + s + r`, each with the stage
counter at the number of steps spent in the stage, and Idle at `k = a + d + s + r`. -/
theorem adsr_run (w : Windower K) (a d s r : Nat) (ha : 1 ≤ a) (hd : 1 ≤ d) (hs : 1 ≤ s)
    (hr : 1 ≤ r) (hca : w.attackSamples = a) (hcd : w.decaySamples = d)
    (hcs : w.sustainSamples = s) (hcr : w.releaseSamples = r)
    (hst : w.envState = EnvState.Attack) (he : w.envSample = 0) :
    ∀ k : Nat, k ≤ a + d + s + r →
      ((Nat.iterate (fun u => (Windower.processADSR u).1) k w).attackSamples = a ∧
        (Nat.iterate (fun u => (Windower.processADSR u).1) k w).decaySamples = d ∧
        (Nat.iterate (fun u => (Windower.processADSR u).1) k w).sustainSamples = s ∧
        (Nat.iterate (fun u => (Windower.processADSR u).1) k w).releaseSamples = r) ∧
      (k < a →
        (Nat.iterate (fun u => (Windower.processADSR u).1) k w).envState = EnvState.Attack ∧
        (Nat.iterate (fun u => (Windower.processADSR u).1) k w).envSample = (k : Int)) ∧
      (a ≤ k → k < a + d →
        (Nat.iterate (fun u => (Windower.processADSR u).1) k w).envState = EnvState.Decay ∧
        (Nat.iterate (fun u => (Windower.processADSR u).1) k w).envSample =
          (k : Int) - (a : Int)) ∧
      (a + d ≤ k → k < a + d + s →
        (Nat.iterate (fun u => (Windower.processADSR u).1) k w).envState = EnvState.Sustain ∧
        (Nat.iterate (fun u => (Windower.processADSR u).1) k w).envSample =
          (k : Int) - ((a : Int) + (d : Int))) ∧
      (a + d + s ≤ k → k < a + d + s + r →
        (Nat.iterate (fun u => (Windower.processADSR u).1) k w).envState = EnvState.Release ∧
        (Nat.iterate (fun u => (Windower.processADSR u).1) k w).envSample =
          (k : Int) - ((a : Int) + (d : Int) + (s : Int))) ∧
      (k = a + d + s + r →
        (Nat.iterate (fun u => (Windower.processADSR u).1) k w).envState = EnvState.Idle) := by
  intro k
  induction k with
  | zero =>
    intro _
    simp only [Function.iterate_zero, id_eq]
    refine ⟨⟨hca, hcd, hcs, hcr⟩, fun _ => ⟨hst, by simpa using he⟩, fun h => ?_, fun h => ?_,
      fun h => ?_, fun h => ?_⟩ <;> omega
  | succ k ih =>
    intro hk
    obtain ⟨⟨ca, cd, cs, cr⟩, i1, i2, i3, i4, -⟩ := ih (by omega)
    rw [Function.iterate_succ_apply']
    generalize Nat.iterate (fun u => (Windower.processADSR u).1) k w = v at *
    obtain ⟨na, nd, ns, nr⟩ := processADSR_counts v
    have hcounts : (Windower.processADSR v).1.attackSamples = a ∧
        (Windower.processADSR v).1.decaySamples = d ∧
        (Windower.processADSR v).1.sustainSamples = s ∧
        (Windower.processADSR v).1.releaseSamples = r :=
      ⟨na.trans ca, nd.trans cd, ns.trans cs, nr.trans cr⟩
    have hstate := processADSR_state v
    refine ⟨hcounts, ?_⟩
    by_cases c1 : k < a
    · obtain ⟨st, es⟩ := i1 c1
      by_cases t : v.envSample + 1 ≥ v.attackSamples
      · have eX : (Windower.processADSR v).1.envState = EnvState.Decay := by
          rw [hstate, st]; dsimp only; rw [if_pos t]
        have eY : (Windower.processADSR v).1.envSample = 0 := by
          rw [hstate, st]; dsimp only; rw [if_pos t]
        rw [eX, eY]
        refine ⟨fun h => ?_, fun h h' => ?_, fun h h' => ?_, fun h h' => ?_, fun h => ?_⟩ <;>
          first | (exfalso; omega) | exact ⟨rfl, by omega⟩
      · have eX : (Windower.processADSR v).1.envState = EnvState.Attack := by
          rw [hstate, st]; dsimp only; rw [if_neg t]
        have eY : (Windower.processADSR v).1.envSample = v.envSample + 1 := by
          rw [hstate, st]; dsimp only; rw [if_neg t]
        rw [eX, eY]
        refine ⟨fun h => ?_, fun h h' => ?_, fun h h' => ?_, fun h h' => ?_, fun h => ?_⟩ <;>
          first | (exfalso; omega) | exact ⟨rfl, by omega⟩
    · by_cases c2 : k < a + d
      · obtain ⟨st, es⟩ := i2 (by omega) c2
        by_cases t : v.envSample + 1 ≥ v.decaySamples
        · have eX : (Windower.processADSR v).1.envState = EnvState.Sustain := by
            rw [hstate, st]; dsimp only; rw [if_pos t]
          have eY : (Windower.processADSR v).1.envSample = 0 := by
            rw [hstate, st]; dsimp only; rw [if_pos t]
          rw [eX, eY]
          refine ⟨fun h => ?_, fun h h' => ?_, fun h h' => ?_, fun h h' => ?_, fun h => ?_⟩ <;>
            first | (exfalso; omega) | exact ⟨rfl, by omega⟩
        · have eX : (Windower.processADSR v).1.envState = EnvState.Decay := by
            rw [hstate, st]; dsimp only; rw [if_neg t]
          have eY : (Windower.processADSR v).1.envSample = v.envSample + 1 := by
            rw [hstate, st]; dsimp only; rw [if_neg t]
          rw [eX, eY]
          refine ⟨fun h => ?_, fun h h' => ?_, fun h h' => ?_, fun h h' => ?_, fun h => ?_⟩ <;>
            first | (exfalso; omega) | exact ⟨rfl, by omega⟩
      · by_cases c3 : k < a + d + s
        · obtain ⟨st, es⟩ := i3 (by omega) c3
          by_cases t : v.envSample + 1 ≥ v.sustainSamples
          · have eX : (Windower.processADSR v).1.envState = EnvState.Release := by
              rw [hstate, st]; dsimp only; rw [if_pos t]
            have eY : (Windower.processADSR v).1.envSample = 0 := by
              rw [hstate, st]; dsimp only; rw [if_pos t]
            rw [eX, eY]
            refine ⟨fun h => ?_, fun h h' => ?_, fun h h' => ?_, fun h h' => ?_, fun h => ?_⟩ <;>
              first | (exfalso; omega) | exact ⟨rfl, by omega⟩
          · have eX : (Windower.processADSR v).1.envState = EnvState.Sustain := by
              rw [hstate, st]; dsimp only; rw [if_neg t]
            have eY : (Windower.processADSR v).1.envSample = v.envSample + 1 := by
              rw [hstate, st]; dsimp only; rw [if_neg t]
            rw [eX, eY]
            refine ⟨fun h => ?_, fun h h' => ?_, fun h h' => ?_, fun h h' => ?_, fun h => ?_⟩ <;>
              first | (exfalso; omega) | exact ⟨rfl, by omega⟩
        · obtain ⟨st, es⟩ := i4 (by omega) (by omega)
          by_cases t : v.envSample + 1 ≥ v.releaseSamples
          · have eX : (Windower.processADSR v).1.envState = EnvState.Idle := by
              rw [hstate, st]; dsimp only; rw [if_pos t]
            have eY : (Windower.processADSR v).1.envSample = v.envSample + 1 := by
              rw [hstate, st]; dsimp only; rw [if_pos t]
            rw [eX, eY]
            refine ⟨fun h => ?_, fun h h' => ?_, fun h h' => ?_, fun h h' => ?_, fun h => ?_⟩ <;>
              first | (exfalso; omega) | rfl
          · have eX : (Windower.processADSR v).1.envState = EnvState.Release := by
              rw [hstate, st]; dsimp only; rw [if_neg t]
            have eY : (Windower.processADSR v).1.envSample = v.envSample + 1 := by
              rw [hstate, st]; dsimp only; rw [if_neg t]
            rw [eX, eY]
            refine ⟨fun h => ?_, fun h h' => ?_, fun h h' => ?_, fun h h' => ?_, fun h => ?_⟩ <;>
              first | (exfalso; omega) | exact ⟨rfl, by omega⟩

end AdsrMachine

section AdsrClaim

variable {K : Type} [LinearOrderedField K] [FloorRing K]

/-- C16: the ADSR state machine. (1) One envelope step (`processADSR`) keeps the stage or
moves it to its immediate successor in the order Attack, Decay, Sustain, Release, Idle.
(2) A generator whose envelope is Idle stays Idle under an envelope step and under any run
of `process` calls; `startNewGrain` with an ADSR shape enters Attack with the stage counter
at 0. (3) From the start of the attack, with stage counts `a`, `d`, `s`, `r` of at least 1,
the stage is Idle after `a + d + s + r` envelope steps and after no smaller number of
steps. -/
theorem adsr_state_machine :
    (∀ v : Windower K,
      (Windower.processADSR v).1.envState = v.envState ∨
      (v.envState = EnvState.Attack ∧ (Windower.processADSR v).1.envState = EnvState.Decay) ∨
      (v.envState = EnvState.Decay ∧ (Windower.processADSR v).1.envState = EnvState.Sustain) ∨
      (v.envState = EnvState.Sustain ∧
        (Windower.processADSR v).1.envState = EnvState.Release) ∨
      (v.envState = EnvState.Release ∧ (Windower.processADSR v).1.envState = EnvState.Idle)) ∧
    (∀ (m : FloatMath K) (v : Windower K) (inputs : List K), v.envState = EnvState.Idle →
      (Windower.processADSR v).1.envState = EnvState.Idle ∧
      (Windower.processAll m v inputs).1.envState = EnvState.Idle) ∧
    (∀ (v : Windower K) (offset shape L : Int) (params : WindowerParams K), 10 ≤ shape →
      (Windower.startNewGrain v offset shape L params).envState = EnvState.Attack ∧
      (Windower.startNewGrain v offset shape L params).envSample = 0) ∧
    (∀ (v : Windower K) (a d s r : Nat), 1 ≤ a → 1 ≤ d → 1 ≤ s → 1 ≤ r →
      v.attackSamples = a → v.decaySamples = d → v.sustainSamples = s →
      v.releaseSamples = r → v.envState = EnvState.Attack → v.envSample = 0 →
      (Nat.iterate (fun u => (Windower.processADSR u).1) (a + d + s + r) v).envState
        = EnvState.Idle ∧
      ∀ k : Nat, k < a + d + s + r →
        (Nat.iterate (fun u => (Windower.processADSR u).1) k v).envState ≠ EnvState.Idle) := by
  refine ⟨processADSR_stage, ?_, ?_, ?_⟩
  · intro m v inputs h
    refine ⟨?_, processAll_idle m inputs v h⟩
    rcases processADSR_stage v with h1 | h1 | h1 | h1 | h1
    · rw [h1, h]
    all_goals exact absurd (h1.1.symm.trans h) (by decide)
  · intro v offset shape L params hshape
    simp [Windower.startNewGrain, hshape]
  · intro v a d s r ha hd hs hr hca hcd hcs hcr hst he
    have hrun := adsr_run v a d s r ha hd hs hr hca hcd hcs hcr hst he
    refine ⟨(hrun _ (le_refl _)).2.2.2.2.2 rfl, ?_⟩
    intro k hk
    obtain ⟨-, i1, i2, i3, i4, -⟩ := hrun k (by omega)
    by_cases c1 : k < a
    · rw [(i1 c1).1]; decide
    · by_cases c2 : k < a + d
      · rw [(i2 (by omega) c2).1]; decide
      · by_cases c3 : k < a + d + s
        · rw [(i3 (by omega) c3).1]; decide
        · rw [(i4 (by omega) hk).1]; decide

/-- C16 at a concrete input over `ℚ`: an envelope at the start of its attack with the stage
counts 2, 1, 1, 1 is in Release after 4 steps and Idle after 5. -/
theorem adsr_state_machine_witness :
    (Nat.iterate (fun u => (Windower.processADSR u).1) (2 + 1 + 1 + 1)
      ({ (Windower.new : Windower ℚ) with
         envState := EnvState.Attack, attackSamples := 2 })).envState = EnvState.Idle ∧
    (Nat.iterate (fun u => (Windower.processADSR u).1) 4
      ({ (Windower.new : Windower ℚ) with
         envState := EnvState.Attack, attackSamples := 2 })).envState ≠ EnvState.Idle :=
  ⟨(adsr_state_machine.2.2.2
      ({ (Windower.new : Windower ℚ) with
         envState := EnvState.Attack, attackSamples := 2 })
      2 1 1 1 (by decide) (by decide) (by decide) (by decide) rfl rfl rfl rfl rfl rfl).1,
    (adsr_state_machine.2.2.2
      ({ (Windower.new : Windower ℚ) with
         envState := EnvState.Attack, attackSamples := 2 })
      2 1 1 1 (by decide) (by decide) (by decide) (by decide) rfl rfl rfl rfl rfl rfl).2 4
      (by decide)⟩

end AdsrClaim

/-! ## Verification: the dying fade and the pool invariant -/

section DyingFade

variable {K : Type} [LinearOrderedField K] [FloorRing K]

omit [FloorRing K] in
/-- A voice in the Dying state whose counters are positive, while its generator is active
before and after the call: `process` returns the generator's sample times
`dyingCounter / initialDyingCounter`, decrements the counter, and makes the voice Inactive
when the counter reaches 0. -/
theorem process_dying_step (m : FloatMath K) (p : PoolGrain K) (a b : K)
    (hs : p.state = EnvelopeState.Dying) (hc : 0 < p.dyingCounter)
    (hn : 0 < p.initialDyingCounter)
    (hw : (p.window.process m (if p.useInputB then b else a)).1.active = true) :
    (PoolGrain.process m p a b).2 =
      (p.window.process m (if p.useInputB then b else a)).2 *
        ((p.dyingCounter : K) / (p.initialDyingCounter : K)) ∧
    (PoolGrain.process m p a b).1.dyingCounter = p.dyingCounter - 1 ∧
    (PoolGrain.process m p a b).1.initialDyingCounter = p.initialDyingCounter ∧
    (PoolGrain.process m p a b).1.window =
      (p.window.process m (if p.useInputB then b else a)).1 ∧
    (PoolGrain.process m p a b).1.state =
      (if p.dyingCounter - 1 ≤ 0 then EnvelopeState.Inactive else EnvelopeState.Dying) := by
  by_cases hlast : p.dyingCounter - 1 ≤ 0
  · simp [PoolGrain.process, hs, hc, hn, hw, hlast, Windower.isActive]
  · simp [PoolGrain.process, hs, hc, hn, hw, hlast, Windower.isActive]

omit [FloorRing K] in
/-- A voice that is Inactive while its generator is still active is not silent: `process`
returns the generator's sample unscaled. -/
theorem process_inactive_active_window (m : FloatMath K) (p : PoolGrain K) (a b : K)
    (hs : p.state = EnvelopeState.Inactive) (hw : p.window.active = true) :
    (PoolGrain.process m p a b).2 = (p.window.process m (if p.useInputB then b else a)).2 := by
  have hd : ¬ EnvelopeState.Inactive = EnvelopeState.Dying := by decide
  simp only [PoolGrain.process, hs, hw, Windower.isActive, Bool.not_true, Bool.false_and,
    Bool.false_eq_true, if_false, if_neg hd]
  split <;> split <;> rfl

/-- The fade length at 500 Hz: `max(4, int(8 * 0.001 * 500)) = 4`. -/
theorem truncToInt_fade_500 : truncToInt ((PoolGrain.dyingFadeMs : ℚ) * 0.001 * 500) = 4 := by
  have h : ((PoolGrain.dyingFadeMs : ℚ) * 0.001 * 500) = ((4 : Int) : ℚ) := by
    norm_num [PoolGrain.dyingFadeMs]
  rw [h, truncToInt_intCast]

/-- C17 on a Rectangular grain of 1000 samples marked Dying at 500 Hz (fade length
`N = 4`): the four following calls return the input 1 times 4/4, 3/4, 2/4, 1/4 and leave the
voice Inactive, but its generator is still active and the fifth call returns 1, not 0. -/
theorem dying_voice_sounds_after_fade :
    ∀ m : FloatMath ℚ,
      (((PoolGrain.new : PoolGrain ℚ).trigger 3 1000 false).markDying 500).state
        = EnvelopeState.Dying ∧
      (((PoolGrain.new : PoolGrain ℚ).trigger 3 1000 false).markDying 500).dyingCounter = 4 ∧
      (((PoolGrain.new : PoolGrain ℚ).trigger 3 1000 false).markDying 500).initialDyingCounter
        = 4 ∧
      (PoolGrain.processAll m
        (((PoolGrain.new : PoolGrain ℚ).trigger 3 1000 false).markDying 500)
        [(1, 0), (1, 0), (1, 0), (1, 0)]).1.state = EnvelopeState.Inactive ∧
      (PoolGrain.processAll m
        (((PoolGrain.new : PoolGrain ℚ).trigger 3 1000 false).markDying 500)
        [(1, 0), (1, 0), (1, 0), (1, 0)]).1.window.active = true ∧
      (PoolGrain.processAll m
        (((PoolGrain.new : PoolGrain ℚ).trigger 3 1000 false).markDying 500)
        [(1, 0), (1, 0), (1, 0), (1, 0), (1, 0)]).2 = [1, 3 / 4, 1 / 2, 1 / 4, 1] := by
  intro m
  have hN := truncToInt_fade_500
  simp [PoolGrain.processAll, PoolGrain.trigger, PoolGrain.markDying, hN, stdMax,
    PoolGrain.process, Windower.process, Windower.startNewGrain, Windower.evaluateWindow,
    Windower.isActive, jlimit, PoolGrain.new, Windower.new]
  norm_num

end DyingFade

section PoolInvariant

variable {K : Type} [LinearOrderedField K] [FloorRing K]

/-- Whatever its arguments, `trigger` leaves the voice Active with an active generator. -/
theorem trigger_active (p : PoolGrain K) (shape length : Int) (src : Bool) :
    (p.trigger shape length src).state = EnvelopeState.Active ∧
    (p.trigger shape length src).window.active = true := by
  refine ⟨rfl, ?_⟩
  simp only [PoolGrain.trigger, Windower.startNewGrain, Windower.setADSRStages]
  split <;> rfl

omit [FloorRing K] in
/-- One `process` call on a voice that is Active with an active generator, or Inactive with
an inactive one, leaves it in one of these two conditions; from the second it returns 0. -/
theorem voice_process_invariant (m : FloatMath K) (p : PoolGrain K) (a b : K)
    (h : (p.state = EnvelopeState.Active ∧ p.window.active = true) ∨
      (p.state = EnvelopeState.Inactive ∧ p.window.active = false)) :
    (((PoolGrain.process m p a b).1.state = EnvelopeState.Active ∧
        (PoolGrain.process m p a b).1.window.active = true) ∨
      ((PoolGrain.process m p a b).1.state = EnvelopeState.Inactive ∧
        (PoolGrain.process m p a b).1.window.active = false)) ∧
    (p.state = EnvelopeState.Inactive → (PoolGrain.process m p a b).2 = 0) := by
  rcases h with ⟨hs, hw⟩ | ⟨hs, hw⟩
  · have hne : ¬ EnvelopeState.Active = EnvelopeState.Inactive := by decide
    refine ⟨?_, fun h => absurd (hs.symm.trans h) hne⟩
    by_cases hafter : (p.window.process m (if p.useInputB then b else a)).1.active = true
    · left
      simp [PoolGrain.process, hs, hw, hafter, Windower.isActive]
    · right
      simp [PoolGrain.process, hs, hw, hafter, Windower.isActive]
  · refine ⟨Or.inr ?_, fun _ => ?_⟩
    · simp [PoolGrain.process, hs, hw, Windower.isActive]
    · simp [PoolGrain.process, hs, hw, Windower.isActive]

omit [FloorRing K] in
/-- The loop of `GrainGate::process` over a list of distinct voice indices: every listed
voice is replaced by its processed state, the others are untouched, and the samples of the
listed voices are added to the accumulator. -/
theorem process_fold (m : FloatMath K) (a b : K) (l : List (Fin grainsInPool)) :
    l.Nodup → ∀ (pool : Fin grainsInPool → PoolGrain K) (out : K),
      (l.foldl
        (fun (acc : (Fin grainsInPool → PoolGrain K) × K) i =>
          (Function.update acc.1 i ((acc.1 i).process m a b).1,
            acc.2 + ((acc.1 i).process m a b).2))
        (pool, out)) =
      ((fun j => if j ∈ l then ((pool j).process m a b).1 else pool j),
        out + (l.map (fun i => ((pool i).process m a b).2)).sum) := by
  induction l with
  | nil =>
    intro _ pool out
    simp
  | cons i l ih =>
    intro hnd pool out
    obtain ⟨hi, hl⟩ := List.nodup_cons.1 hnd
    simp only [List.foldl_cons]
    rw [ih hl]
    have hsame : ∀ j, j ∈ l → Function.update pool i ((pool i).process m a b).1 j = pool j := by
      intro j hj
      have hne : j ≠ i := fun h => hi (h ▸ hj)
      exact Function.update_noteq hne _ _
    refine Prod.ext ?_ ?_
    · funext j
      dsimp only
      by_cases hj : j ∈ l
      · rw [if_pos hj, if_pos (List.mem_cons_of_mem _ hj), hsame j hj]
      · rw [if_neg hj]
        by_cases hji : j = i
        · subst hji
          rw [Function.update_same, if_pos (List.mem_cons_self _ _)]
        · rw [Function.update_noteq hji, if_neg]
          intro hmem
          rcases List.mem_cons.1 hmem with h | h
          · exact hji h
          · exact hj h
    · dsimp only
      have hmap : l.map (fun k => ((Function.update pool i ((pool i).process m a b).1 k).process
          m a b).2) = l.map (fun k => ((pool k).process m a b).2) := by
        apply List.map_congr_left
        intro k hk
        rw [hsame k hk]
      rw [hmap, List.map_cons, List.sum_cons, add_assoc]

omit [FloorRing K] in
/-- The pool after `GrainGate::process`: the cursor is as before, every voice is its
processed state, and the returned sample is the sum of the voices' samples. -/
theorem pool_process_spec (m : FloatMath K) (g : GrainGate K) (a b : K) :
    (GrainGate.process m g a b).1.nextGrainIndex = g.nextGrainIndex ∧
    (∀ i, (GrainGate.process m g a b).1.pool i = ((g.pool i).process m a b).1) ∧
    (GrainGate.process m g a b).2 =
      ((List.finRange grainsInPool).map (fun i => ((g.pool i).process m a b).2)).sum := by
  have h := process_fold m a b (List.finRange grainsInPool) (List.nodup_finRange _) g.pool 0
  simp only [GrainGate.process, h, zero_add]
  refine ⟨trivial, fun i => ?_, trivial⟩
  simp [List.mem_finRange]

end PoolInvariant

section PoolReach

variable {K : Type} [LinearOrderedField K] [FloorRing K]

/-- From a pool whose cursor is inside the pool and whose voices are each Active with an
active generator or Inactive with an inactive one, `triggerGrain` succeeds and leads to such
a pool. -/
theorem triggerGrain_invariant (g : GrainGate K) (shape length : Int) (src : Bool)
    (sampleRate : K) (hcur : 0 ≤ g.nextGrainIndex ∧ g.nextGrainIndex < 32)
    (hv : ∀ i, ((g.pool i).state = EnvelopeState.Active ∧ (g.pool i).window.active = true) ∨
      ((g.pool i).state = EnvelopeState.Inactive ∧ (g.pool i).window.active = false)) :
    ∃ g' : GrainGate K, GrainGate.triggerGrain g shape length src sampleRate = some g' ∧
      (0 ≤ g'.nextGrainIndex ∧ g'.nextGrainIndex < 32) ∧
      ∀ i, ((g'.pool i).state = EnvelopeState.Active ∧ (g'.pool i).window.active = true) ∨
        ((g'.pool i).state = EnvelopeState.Inactive ∧ (g'.pool i).window.active = false) := by
  have hnext : ∀ idx : Fin grainsInPool,
      0 ≤ ((idx : Int) + 1) % 32 ∧ ((idx : Int) + 1) % 32 < 32 :=
    fun idx => ⟨Int.emod_nonneg _ (by decide), Int.emod_lt_of_pos _ (by decide)⟩
  rcases triggerGrain_cases g shape length src sampleRate hcur with
    ⟨t, idx, -, -, -, -, h6⟩ | ⟨-, idx, -, h6⟩
  · refine ⟨_, h6, hnext idx, ?_⟩
    intro i
    dsimp only
    by_cases hi : i = idx
    · subst hi
      rw [Function.update_same]
      exact Or.inl (trigger_active _ _ _ _)
    · rw [Function.update_noteq hi]
      exact hv i
  · refine ⟨_, h6, hnext idx, ?_⟩
    intro i
    dsimp only
    by_cases hi : i = idx
    · subst hi
      rw [Function.update_same]
      exact Or.inl (trigger_active _ _ _ _)
    · rw [Function.update_noteq hi]
      exact hv i

/-- Every sequence of `triggerGrain` and `process` calls, from a pool whose cursor is inside
the pool and whose voices are each Active with an active generator or Inactive with an
inactive one, succeeds and leads to such a pool. -/
theorem run_invariant (m : FloatMath K) (ops : List (GrainGate.PoolOp K)) :
    ∀ g : GrainGate K, (0 ≤ g.nextGrainIndex ∧ g.nextGrainIndex < 32) →
      (∀ i, ((g.pool i).state = EnvelopeState.Active ∧ (g.pool i).window.active = true) ∨
        ((g.pool i).state = EnvelopeState.Inactive ∧ (g.pool i).window.active = false)) →
      ∃ g' : GrainGate K, GrainGate.run m g ops = some g' ∧
        (0 ≤ g'.nextGrainIndex ∧ g'.nextGrainIndex < 32) ∧
        ∀ i, ((g'.pool i).state = EnvelopeState.Active ∧ (g'.pool i).window.active = true) ∨
          ((g'.pool i).state = EnvelopeState.Inactive ∧
            (g'.pool i).window.active = false) := by
  induction ops with
  | nil =>
    intro g hcur hv
    exact ⟨g, rfl, hcur, hv⟩
  | cons op ops ih =>
    intro g hcur hv
    cases op with
    | trigger c =>
      obtain ⟨g1, h1, hc1, hv1⟩ := triggerGrain_invariant g c.windowType c.windowLength
        c.useInputB c.sampleRate hcur hv
      obtain ⟨g', h', hc', hv'⟩ := ih g1 hc1 hv1
      exact ⟨g', by simp only [GrainGate.run, h1]; exact h', hc', hv'⟩
    | process a b =>
      obtain ⟨p1, p2, -⟩ := pool_process_spec m g a b
      obtain ⟨g', h', hc', hv'⟩ := ih (GrainGate.process m g a b).1 (by rw [p1]; exact hcur)
        (fun i => by rw [p2 i]; exact (voice_process_invariant m (g.pool i) a b (hv i)).1)
      exact ⟨g', by simp only [GrainGate.run]; exact h', hc', hv'⟩

/-- C18: every sequence of `triggerGrain` and `process` calls on a prepared pool succeeds,
and in the state it reaches the cursor lies in [0, 32) and every voice is either Active with
an active generator or Inactive with an inactive generator; no voice is Dying; the sample
that the pool's `process` returns is the sum of the samples of the 32 voices, to which an
Inactive voice contributes 0. -/
theorem pool_invariant (m : FloatMath K) (g0 : GrainGate K) (sampleRate : K)
    (ops : List (GrainGate.PoolOp K)) :
    ∃ g : GrainGate K, GrainGate.run m (GrainGate.prepare g0 sampleRate) ops = some g ∧
      (0 ≤ g.nextGrainIndex ∧ g.nextGrainIndex < 32) ∧
      (∀ i, ((g.pool i).state = EnvelopeState.Active ∧ (g.pool i).window.active = true) ∨
        ((g.pool i).state = EnvelopeState.Inactive ∧ (g.pool i).window.active = false)) ∧
      (∀ i, (g.pool i).state ≠ EnvelopeState.Dying) ∧
      ∀ a b : K,
        (GrainGate.process m g a b).2 =
          ((List.finRange grainsInPool).map (fun i => ((g.pool i).process m a b).2)).sum ∧
        ∀ i, (g.pool i).state = EnvelopeState.Inactive → ((g.pool i).process m a b).2 = 0 := by
  obtain ⟨g, hrun, hcur, hv⟩ := run_invariant m ops (GrainGate.prepare g0 sampleRate)
    (by rw [prepare_eq]; exact ⟨le_refl _, by norm_num⟩)
    (fun i => by rw [prepare_eq]; exact Or.inr ⟨rfl, rfl⟩)
  refine ⟨g, hrun, hcur, hv, ?_, ?_⟩
  · intro i
    rcases hv i with h | h <;> rw [h.1] <;> decide
  · intro a b
    exact ⟨(pool_process_spec m g a b).2.2,
      fun i hi => (voice_process_invariant m (g.pool i) a b (hv i)).2 hi⟩

end PoolReach

end GrainEngine
